import Mathlib

/-!
Shallow embedding of the `dstack-ingress-vpc` DNS-provider layer
(`scripts/dns_providers/`): the shared record-management algorithms of
`base.py`, the zone-resolution logic of `cloudflare.py` and `linode.py`,
the Namecheap adapter's failure paths, and the provider factory.
Python dictionaries are modelled as association lists, machine state as
explicit state passing, and the network as oracle parameters.
-/

namespace DstackIngress

/-- The `RecordType` enum of `base.py`. -/
inductive RecordType where
  | A | AAAA | CNAME | TXT | MX | NS | CAA | SRV | PTR
  deriving DecidableEq, Repr

/-- The `DNSRecord` dataclass of `base.py`.  The `data` dict carried by CAA
records is modelled as an association list from keys to string values. -/
structure DNSRecord where
  id : Option String
  name : String
  type : RecordType
  content : String
  ttl : Nat
  proxied : Bool
  priority : Option Nat
  data : Option (List (String × String))
  deriving DecidableEq, Repr

/-- The `CAARecord` dataclass of `base.py`. -/
structure CAARecord where
  name : String
  flags : Nat
  tag : String
  value : String
  ttl : Nat
  deriving DecidableEq, Repr

/-- Python truthiness of an optional string (`if record.id:`):
`None` and the empty string are falsy. -/
def idTruthy : Option String → Bool
  | none => false
  | some s => !(s = "")

/-- Python truthiness of the optional `data` dict (`if record.data`):
`None` and the empty dict are falsy. -/
def dataTruthy : Option (List (String × String)) → Bool
  | none => false
  | some d => !d.isEmpty

/-- Python `record.data.get(key)` on the optional `data` dict. -/
def dataGet (d : Option (List (String × String))) (key : String) : Option String :=
  match d with
  | none => none
  | some l => l.lookup key

/-- A mutating provider call issued by one of the `base.py` algorithms:
`delete_dns_record`, `create_dns_record` or `create_caa_record`. -/
inductive PCall where
  | del (rid : String) (domain : String)
  | create (r : DNSRecord)
  | createCaa (c : CAARecord)
  deriving DecidableEq, Repr

/-- Number of `delete_dns_record` calls in a trace. -/
def delCount (tr : List PCall) : Nat :=
  (tr.filter (fun c => match c with | PCall.del _ _ => true | _ => false)).length

/-- Number of `create_dns_record` calls in a trace. -/
def createCount (tr : List PCall) : Nat :=
  (tr.filter (fun c => match c with | PCall.create _ => true | _ => false)).length

/-- Number of `create_caa_record` calls in a trace. -/
def createCaaCount (tr : List PCall) : Nat :=
  (tr.filter (fun c => match c with | PCall.createCaa _ => true | _ => false)).length

/-- A DNS provider adapter, as the abstract interface `DNSProvider` of
`base.py` sees it: the four primitive methods, each an explicit state
transformer on the provider's world state `σ`. -/
structure Provider (σ : Type) where
  get_dns_records : σ → String → Option RecordType → List DNSRecord × σ
  create_dns_record : σ → DNSRecord → Bool × σ
  delete_dns_record : σ → String → String → Bool × σ
  create_caa_record : σ → CAARecord → Bool × σ

/-- The `for record in existing_records` loop of `DNSProvider.set_a_record`:
return `True` as soon as a record with the requested IP is seen, otherwise
delete each record that has a (truthy) id.  The boolean result records
whether the loop exited early; the trace accumulates the issued calls. -/
def setARecordGo {σ : Type} (p : Provider σ) (name ip : String) :
    List DNSRecord → σ → List PCall → Bool × σ × List PCall
  | [], s, tr => (false, s, tr)
  | r :: rest, s, tr =>
    if r.content = ip then (true, s, tr)
    else if idTruthy r.id then
      let s' := (p.delete_dns_record s (r.id.getD "") name).2
      setARecordGo p name ip rest s' (tr ++ [PCall.del (r.id.getD "") name])
    else setARecordGo p name ip rest s tr

/-- `DNSProvider.set_a_record` of `base.py`. -/
def set_a_record {σ : Type} (p : Provider σ) (s : σ) (name ip : String)
    (ttl : Nat) (proxied : Bool) : Bool × σ × List PCall :=
  let gr := p.get_dns_records s name (some RecordType.A)
  match setARecordGo p name ip gr.1 gr.2 [] with
  | (true, s', tr) => (true, s', tr)
  | (false, s', tr) =>
    let newRec : DNSRecord :=
      ⟨none, name, RecordType.A, ip, ttl, proxied, none, none⟩
    let cr := p.create_dns_record s' newRec
    (cr.1, cr.2, tr ++ [PCall.create newRec])

/-- The loop of `DNSProvider.set_txt_record`: the no-op check also accepts
the stored content wrapped in literal double quotes. -/
def setTxtRecordGo {σ : Type} (p : Provider σ) (name content : String) :
    List DNSRecord → σ → List PCall → Bool × σ × List PCall
  | [], s, tr => (false, s, tr)
  | r :: rest, s, tr =>
    if r.content = content ∨ r.content = "\"" ++ content ++ "\"" then (true, s, tr)
    else if idTruthy r.id then
      let s' := (p.delete_dns_record s (r.id.getD "") name).2
      setTxtRecordGo p name content rest s' (tr ++ [PCall.del (r.id.getD "") name])
    else setTxtRecordGo p name content rest s tr

/-- `DNSProvider.set_txt_record` of `base.py`. -/
def set_txt_record {σ : Type} (p : Provider σ) (s : σ) (name content : String)
    (ttl : Nat) : Bool × σ × List PCall :=
  let gr := p.get_dns_records s name (some RecordType.TXT)
  match setTxtRecordGo p name content gr.1 gr.2 [] with
  | (true, s', tr) => (true, s', tr)
  | (false, s', tr) =>
    let newRec : DNSRecord :=
      ⟨none, name, RecordType.TXT, content, ttl, false, none, none⟩
    let cr := p.create_dns_record s' newRec
    (cr.1, cr.2, tr ++ [PCall.create newRec])

/-- The loop of `DNSProvider.set_caa_record`: only records with a truthy
`data` dict whose `tag` entry equals the requested tag are considered; a
matching `value` is an early success, a differing one a deletion. -/
def setCaaRecordGo {σ : Type} (p : Provider σ) (name tag value : String) :
    List DNSRecord → σ → List PCall → Bool × σ × List PCall
  | [], s, tr => (false, s, tr)
  | r :: rest, s, tr =>
    if dataTruthy r.data ∧ dataGet r.data "tag" = some tag then
      if dataGet r.data "value" = some value then (true, s, tr)
      else if idTruthy r.id then
        let s' := (p.delete_dns_record s (r.id.getD "") name).2
        setCaaRecordGo p name tag value rest s' (tr ++ [PCall.del (r.id.getD "") name])
      else setCaaRecordGo p name tag value rest s tr
    else setCaaRecordGo p name tag value rest s tr

/-- `DNSProvider.set_caa_record` of `base.py`. -/
def set_caa_record {σ : Type} (p : Provider σ) (s : σ) (name tag value : String)
    (flags : Nat) (ttl : Nat) : Bool × σ × List PCall :=
  let gr := p.get_dns_records s name (some RecordType.CAA)
  match setCaaRecordGo p name tag value gr.1 gr.2 [] with
  | (true, s', tr) => (true, s', tr)
  | (false, s', tr) =>
    let caa : CAARecord := ⟨name, flags, tag, value, ttl⟩
    let cr := p.create_caa_record s' caa
    (cr.1, cr.2, tr ++ [PCall.createCaa caa])

/-- The CNAME-deletion loop of `LinodeDNSProvider.set_alias_record`. -/
def deleteRecordsLoop {σ : Type} (p : Provider σ) (name : String) :
    List DNSRecord → σ → List PCall → σ × List PCall
  | [], s, tr => (s, tr)
  | r :: rest, s, tr =>
    if idTruthy r.id then
      let s' := (p.delete_dns_record s (r.id.getD "") name).2
      deleteRecordsLoop p name rest s' (tr ++ [PCall.del (r.id.getD "") name])
    else deleteRecordsLoop p name rest s tr

/-- `LinodeDNSProvider.set_alias_record`: resolve the alias target to an
IPv4 address (`socket.gethostbyname`, which raises on failure — modelled by
the `resolve` oracle returning `none`, mapped to `Except.error`), delete
every pre-existing CNAME at the name, then delegate to `set_a_record`. -/
def set_alias_record {σ : Type} (p : Provider σ) (resolve : String → Option String)
    (s : σ) (name content : String) (ttl : Nat) (_proxied : Bool) :
    Except String (Bool × σ × List PCall) :=
  match resolve content with
  | none => Except.error ("could not resolve host: " ++ content)
  | some ip =>
    if ip = "" then Except.error "Could not resolve any variant of the domain"
    else
      let gr := p.get_dns_records s name (some RecordType.CNAME)
      let dl := deleteRecordsLoop p name gr.1 gr.2 []
      let ar := set_a_record p dl.1 name ip ttl false
      Except.ok (ar.1, ar.2.1, dl.2 ++ ar.2.2)

/-! ### A simulated provider

A pure in-memory provider state, used to state the idempotence and
end-state claims the spec phrases "against the same simulated provider
state": records live in a list, fetching filters by name and type,
creation appends with a fresh id, deletion removes by id. -/

/-- State of the simulated provider. -/
structure SimState where
  records : List DNSRecord
  nextId : Nat
  deriving DecidableEq, Repr

/-- Does a record match a fetch for `name` filtered by `rt`? -/
def simMatches (name : String) (rt : Option RecordType) (r : DNSRecord) : Bool :=
  decide (r.name = name) &&
    (match rt with | none => true | some t => decide (r.type = t))

/-- The simulated provider. -/
def simProvider : Provider SimState where
  get_dns_records := fun s name rt => (s.records.filter (simMatches name rt), s)
  create_dns_record := fun s r =>
    (true, ⟨s.records ++ [{ r with id := some (toString s.nextId) }], s.nextId + 1⟩)
  delete_dns_record := fun s rid _domain =>
    (true, ⟨s.records.filter (fun r => decide (r.id ≠ some rid)), s.nextId⟩)
  create_caa_record := fun s c =>
    (true,
      ⟨s.records ++
        [⟨some (toString s.nextId), c.name, RecordType.CAA, c.value, c.ttl, false, none,
          some [("flags", toString c.flags), ("tag", c.tag), ("value", c.value)]⟩],
        s.nextId + 1⟩)

/-- The A records at `name` in a simulated state. -/
def simARecordsAt (s : SimState) (name : String) : List DNSRecord :=
  s.records.filter (simMatches name (some RecordType.A))

/-- The CNAME records at `name` in a simulated state. -/
def simCnameRecordsAt (s : SimState) (name : String) : List DNSRecord :=
  s.records.filter (simMatches name (some RecordType.CNAME))

/-- The CAA records at `name` in a simulated state. -/
def simCaaRecordsAt (s : SimState) (name : String) : List DNSRecord :=
  s.records.filter (simMatches name (some RecordType.CAA))

/-! ### Cloudflare zone resolution (`cloudflare.py`) -/

/-- A zone as returned by the Cloudflare `zones` listing: its `id` and
`name` fields. -/
structure Zone where
  id : String
  name : String
  deriving DecidableEq, Repr

/-- Python `domain.endswith("." + zoneName)`. -/
def pyEndsWithDot (domain zoneName : String) : Bool :=
  ("." ++ zoneName).data.isSuffixOf domain.data

/-- Does a zone match a domain, in the sense of `_get_zone_info`: exact
name equality or dot-suffix match? -/
def zoneMatches (domain : String) (z : Zone) : Bool :=
  decide (domain = z.name) || pyEndsWithDot domain z.name

/-- The `for zone in zones` body of `CloudflareDNSProvider._get_zone_info`,
over one page: an exact name match returns immediately (`Sum.inl`);
otherwise the longest dot-suffix match seen so far is tracked in the
accumulator `(bestLen, bestId, bestName)`. -/
def scanZones (domain : String) :
    List Zone → Nat × Option String × Option String →
    Sum (String × String) (Nat × Option String × Option String)
  | [], acc => Sum.inr acc
  | z :: rest, (len, zid, zn) =>
    if domain = z.name then Sum.inl (z.id, z.name)
    else if pyEndsWithDot domain z.name ∧ z.name.length > len then
      scanZones domain rest (z.name.length, some z.id, some z.name)
    else scanZones domain rest (len, zid, zn)

/-- The page loop of `_get_zone_info`, threading the best-match
accumulator across pages. -/
def scanPages (domain : String) :
    List (List Zone) → Nat × Option String × Option String →
    Sum (String × String) (Nat × Option String × Option String)
  | [], acc => Sum.inr acc
  | pg :: rest, acc =>
    match scanZones domain pg acc with
    | Sum.inl r => Sum.inl r
    | Sum.inr acc' => scanPages domain rest acc'

/-- `CloudflareDNSProvider._get_zone_info`, with the paginated listing
modelled as the list of per-page zone lists (each request succeeding).
An empty first page is the `"No zones found for any domain"` failure; the
final `if zone_id and zone_name_found:` keeps Python truthiness. -/
def get_zone_info (pages : List (List Zone)) (domain : String) :
    Option (String × String) :=
  match pages with
  | [] => none
  | firstPage :: _ =>
    if firstPage.isEmpty then none
    else
      match scanPages domain pages (0, none, none) with
      | Sum.inl (zid, zn) => some (zid, zn)
      | Sum.inr (_, some zid, some zn) =>
        if zid = "" ∨ zn = "" then none else some (zid, zn)
      | Sum.inr _ => none

/-- The `zone_id` / `zone_domain` instance attributes that cache the
resolved zone in both the Cloudflare and the Linode adapter. -/
structure ZoneCache where
  zone_id : Option String
  zone_domain : Option String
  deriving DecidableEq, Repr

/-- Python truthiness of `self.zone_id and self.zone_domain` plus the
suffix test of `_ensure_zone_id`: the cache covers `domain` when both
fields are truthy and `domain` equals the cached zone name or is a
subdomain of it. -/
def cacheCovers (c : ZoneCache) (domain : String) : Bool :=
  idTruthy c.zone_id && idTruthy c.zone_domain &&
    (decide (domain = c.zone_domain.getD "") ||
      pyEndsWithDot domain (c.zone_domain.getD ""))

/-- `CloudflareDNSProvider._ensure_zone_id`.  The returned boolean says
whether a zone listing (`_get_zone_info`) was performed; on a failed
re-resolution the stale `self.zone_id` is returned unchanged. -/
def cf_ensure_zone_id (pages : List (List Zone)) (c : ZoneCache)
    (domain : String) : Option String × ZoneCache × Bool :=
  if cacheCovers c domain then (c.zone_id, c, false)
  else
    match get_zone_info pages domain with
    | some (zid, zn) => (some zid, ⟨some zid, some zn⟩, true)
    | none => (c.zone_id, c, true)

/-- `CloudflareDNSProvider.get_dns_records`: fail to an empty list when no
zone is found; the in-zone record listing itself is the `listRecords`
oracle (`none` modelling a failed request). -/
def cf_get_dns_records (pages : List (List Zone))
    (listRecords : String → String → Option RecordType → Option (List DNSRecord))
    (c : ZoneCache) (name : String) (rt : Option RecordType) :
    List DNSRecord × ZoneCache :=
  let e := cf_ensure_zone_id pages c name
  if idTruthy e.1 then
    match listRecords (e.1.getD "") name rt with
    | none => ([], e.2.1)
    | some recs => (recs, e.2.1)
  else ([], e.2.1)

/-- `CloudflareDNSProvider.create_dns_record`: fail to `false` when no zone
is found; the POST itself is the `post` oracle. -/
def cf_create_dns_record (pages : List (List Zone))
    (post : String → DNSRecord → Bool) (c : ZoneCache) (record : DNSRecord) :
    Bool × ZoneCache :=
  let e := cf_ensure_zone_id pages c record.name
  if idTruthy e.1 then (post (e.1.getD "") record, e.2.1)
  else (false, e.2.1)

/-- `CloudflareDNSProvider.create_caa_record`: fail to `false` when no zone
is found; the POST itself is the `post` oracle. -/
def cf_create_caa_record (pages : List (List Zone))
    (post : String → CAARecord → Bool) (c : ZoneCache) (caa : CAARecord) :
    Bool × ZoneCache :=
  let e := cf_ensure_zone_id pages c caa.name
  if idTruthy e.1 then (post (e.1.getD "") caa, e.2.1)
  else (false, e.2.1)

/-! ### Linode zone resolution (`linode.py`) -/

/-- A domain object as returned by the Linode `domains` listing. -/
structure LinodeDomain where
  id : Nat
  domain : String
  deriving DecidableEq, Repr

/-- Does a Linode domain match, in the sense of `_get_zone_id`? -/
def linodeMatches (domain : String) (d : LinodeDomain) : Bool :=
  decide (domain = d.domain) || pyEndsWithDot domain d.domain

/-- The `for domain_obj in domains` loop of
`LinodeDNSProvider._get_zone_id`: exact match returns `str(id)`
immediately; otherwise the longest dot-suffix match is tracked as
`(bestLen, bestId)`. -/
def scanDomains (domain : String) :
    List LinodeDomain → Nat × Option Nat → Sum String (Nat × Option Nat)
  | [], acc => Sum.inr acc
  | d :: rest, (len, best) =>
    if domain = d.domain then Sum.inl (toString d.id)
    else if pyEndsWithDot domain d.domain ∧ d.domain.length > len then
      scanDomains domain rest (d.domain.length, some d.id)
    else scanDomains domain rest (len, best)

/-- `LinodeDNSProvider._get_zone_id` (the listing request succeeding).
The final `if best_match_domain:` keeps Python truthiness: a best-match
id of `0` is falsy and yields `None`. -/
def ln_get_zone_id (domains : List LinodeDomain) (domain : String) :
    Option String :=
  match scanDomains domain domains (0, none) with
  | Sum.inl zid => some zid
  | Sum.inr (_, some best) => if best = 0 then none else some (toString best)
  | Sum.inr (_, none) => none

/-- `LinodeDNSProvider._ensure_zone_id`: on a cache miss `self.zone_id`
is overwritten with the fresh lookup result (possibly `None`), and
`self.zone_domain` is refreshed from a `GET domains/{id}` only when that
second request finds the domain.  The boolean says whether the domain
listing was performed. -/
def ln_ensure_zone_id (domains : List LinodeDomain) (c : ZoneCache)
    (domain : String) : Option String × ZoneCache × Bool :=
  if cacheCovers c domain then (c.zone_id, c, false)
  else
    match ln_get_zone_id domains domain with
    | none => (none, ⟨none, c.zone_domain⟩, true)
    | some zid =>
      match domains.find? (fun d => decide (toString d.id = zid)) with
      | some d => (some zid, ⟨some zid, some d.domain⟩, true)
      | none => (some zid, ⟨some zid, c.zone_domain⟩, true)

/-- `LinodeDNSProvider.get_dns_records`: empty list when no zone is found;
the in-zone record listing is the `listRecords` oracle. -/
def ln_get_dns_records (domains : List LinodeDomain)
    (listRecords : String → String → Option RecordType → Option (List DNSRecord))
    (c : ZoneCache) (name : String) (rt : Option RecordType) :
    List DNSRecord × ZoneCache :=
  let e := ln_ensure_zone_id domains c name
  if idTruthy e.1 then
    match listRecords (e.1.getD "") name rt with
    | none => ([], e.2.1)
    | some recs => (recs, e.2.1)
  else ([], e.2.1)

/-- `LinodeDNSProvider.create_dns_record`: `false` when no zone is found. -/
def ln_create_dns_record (domains : List LinodeDomain)
    (post : String → DNSRecord → Bool) (c : ZoneCache) (record : DNSRecord) :
    Bool × ZoneCache :=
  let e := ln_ensure_zone_id domains c record.name
  if idTruthy e.1 then (post (e.1.getD "") record, e.2.1)
  else (false, e.2.1)

/-- `LinodeDNSProvider.create_caa_record`: `false` when no zone is found. -/
def ln_create_caa_record (domains : List LinodeDomain)
    (post : String → CAARecord → Bool) (c : ZoneCache) (caa : CAARecord) :
    Bool × ZoneCache :=
  let e := ln_ensure_zone_id domains c caa.name
  if idTruthy e.1 then (post (e.1.getD "") caa, e.2.1)
  else (false, e.2.1)

/-! ### Namecheap adapter (`namecheap.py`) -/

/-- Python `domain.split('.')`, over the character list. -/
def splitDotAux : List Char → List Char → List String
  | [], acc => [String.mk acc.reverse]
  | c :: rest, acc =>
    if c = '.' then String.mk acc.reverse :: splitDotAux rest []
    else splitDotAux rest (c :: acc)

/-- Python `domain.split('.')`. -/
def pySplitDot (s : String) : List String :=
  splitDotAux s.data []

/-- `NamecheapDNSProvider._get_domain_info`: split the name on dots and
take the last two labels as (SLD, TLD); fewer than two labels is a
failure. -/
def nc_get_domain_info (domain : String) : Option (String × String) :=
  let parts := pySplitDot domain
  if parts.length < 2 then none
  else some (parts.getD (parts.length - 2) "", parts.getD (parts.length - 1) "")

/-- `NamecheapDNSProvider.get_dns_records`: empty list when the domain
info cannot be derived from the name; the `getHosts` API call and XML
parsing are the `getHosts` oracle. -/
def nc_get_dns_records
    (getHosts : String → String → Option (List DNSRecord))
    (name : String) (rt : Option RecordType) : List DNSRecord :=
  match nc_get_domain_info name with
  | none => []
  | some (sld, tld) =>
    match getHosts sld tld with
    | none => []
    | some hosts =>
      hosts.filter (fun r =>
        match rt with | none => true | some t => decide (r.type = t))

/-- `NamecheapDNSProvider.create_dns_record`: `false` when the domain info
cannot be derived; the read-modify-write `setHosts` round trip is the
`setHosts` oracle. -/
def nc_create_dns_record (setHosts : String → String → DNSRecord → Bool)
    (record : DNSRecord) : Bool :=
  match nc_get_domain_info record.name with
  | none => false
  | some (sld, tld) => setHosts sld tld record

/-- A Namecheap API request (the adapter only ever talks to the API via
`_make_request`). -/
structure NCRequest where
  command : String
  deriving DecidableEq, Repr

/-- `NamecheapDNSProvider.create_caa_record`: the API does not support CAA
records, so the method only prints warnings and returns `True`, issuing no
request at all. -/
def nc_create_caa_record (_caa : CAARecord) : Bool × List NCRequest :=
  (true, [])

/-! ### Provider factory (`factory.py`) -/

/-- The ordered `PROVIDERS` table of `DNSProviderFactory`, paired with
each provider class's `DETECT_ENV` detection variable. -/
def PROVIDERS : List (String × String) :=
  [("cloudflare", "CLOUDFLARE_API_TOKEN"),
   ("linode", "LINODE_API_TOKEN"),
   ("namecheap", "NAMECHEAP_API_KEY")]

/-- `DNSProvider.suitable` for a given detection variable:
`os.environ.get(DETECT_ENV) is not None`. -/
def suitable (env : String → Option String) (detectEnv : String) : Bool :=
  (env detectEnv).isSome

/-- The detection scan of `_detect_provider_type` over the provider
table: first provider whose detection variable is present. -/
def detectScan (env : String → Option String) :
    List (String × String) → Option String
  | [] => none
  | (pname, detectEnv) :: rest =>
    if suitable env detectEnv then some pname else detectScan env rest

/-- Python `s.lower()` (character-wise lowering). -/
def pyLower (s : String) : String :=
  String.mk (s.data.map Char.toLower)

/-- The error raised by `_detect_provider_type` when nothing is detected. -/
def noDetectMsg : String :=
  "Could not detect DNS provider type from environment variables. " ++
    "Please set DNS_PROVIDER environment variable."

/-- The error raised by `create_provider` for an unsupported selector. -/
def unsupportedMsg (providerType : String) : String :=
  "Unsupported DNS provider: " ++ providerType ++
    ". Supported providers: cloudflare, linode, namecheap"

/-- `DNSProviderFactory._detect_provider_type`: a truthy `DNS_PROVIDER`
environment variable wins; otherwise the table is scanned in order; with
nothing detected, a `ValueError` (modelled as `Except.error`) is raised. -/
def detect_provider_type (env : String → Option String) : Except String String :=
  match env "DNS_PROVIDER" with
  | some v =>
    if v = "" then
      match detectScan env PROVIDERS with
      | some pname => Except.ok pname
      | none => Except.error noDetectMsg
    else Except.ok v
  | none =>
    match detectScan env PROVIDERS with
    | some pname => Except.ok pname
    | none => Except.error noDetectMsg

/-- `DNSProviderFactory.create_provider`: a falsy explicit selector falls
back to detection; the selector is lower-cased and must be a key of the
provider table; the result is the selected provider's table key (the
class that would be instantiated). -/
def create_provider (env : String → Option String)
    (providerType : Option String) : Except String String :=
  let pt : Except String String :=
    match providerType with
    | none => detect_provider_type env
    | some s => if s = "" then detect_provider_type env else Except.ok s
  match pt with
  | Except.error e => Except.error e
  | Except.ok s =>
    let l := pyLower s
    if PROVIDERS.any (fun pr => decide (pr.1 = l)) then Except.ok l
    else Except.error (unsupportedMsg l)

/-- Auxiliary: does `t` occur as a contiguous run inside the list? -/
def strContainsAux (t : List Char) : List Char → Bool
  | [] => t.isEmpty
  | c :: rest => t.isPrefixOf (c :: rest) || strContainsAux t rest

/-- Is `t` a contiguous substring of `s`? (used to state which provider
names an error message mentions). -/
def strContains (s t : String) : Bool :=
  strContainsAux t.data s.data

/-! ### Derived notions used in the statements -/

/-- The provider state after the delete calls a `base.py` loop issues for
a list of records (records with a falsy id are skipped). -/
def deleteFold {σ : Type} (p : Provider σ) (name : String)
    (recs : List DNSRecord) (s : σ) : σ :=
  recs.foldl
    (fun st r =>
      if idTruthy r.id then (p.delete_dns_record st (r.id.getD "") name).2 else st)
    s

/-- The delete calls a `base.py` loop issues for a list of records. -/
def delCalls (name : String) (recs : List DNSRecord) : List PCall :=
  (recs.filter (fun r => idTruthy r.id)).map
    (fun r => PCall.del (r.id.getD "") name)

/-- Does a record carry a truthy `data` dict whose `tag` entry equals the
requested tag (the scoping test of `set_caa_record`)? -/
def caaKeyMatch (tag : String) (r : DNSRecord) : Bool :=
  dataTruthy r.data && (dataGet r.data "tag" == some tag)

/-- Is a record the same-tag same-value no-op case of `set_caa_record`? -/
def caaNoopMatch (tag value : String) (r : DNSRecord) : Bool :=
  caaKeyMatch tag r && (dataGet r.data "value" == some value)

/-- The records `set_caa_record` treats as conflicting in a scanned list:
same tag, different value. -/
def caaConflicts (tag value : String) (recs : List DNSRecord) : List DNSRecord :=
  recs.filter (fun r => caaKeyMatch tag r && !(dataGet r.data "value" == some value))

/-- The no-op equality check of `set_txt_record`: stored content equal to
the requested content, plain or wrapped in literal double quotes. -/
def txtMatch (content : String) (r : DNSRecord) : Bool :=
  (r.content == content) || (r.content == "\"" ++ content ++ "\"")

/-- A record's id occurs (truthily) in a list of records. -/
def idAmong (recs : List DNSRecord) (q : DNSRecord) : Bool :=
  recs.any (fun r => idTruthy r.id && (q.id == r.id))

/-- Concrete state refuting the "no mutation" part of the `set_a_record`
claim: two A records at the name, the second already carrying the
requested IP. -/
def cxAState : SimState :=
  ⟨[⟨some "1", "www.example.com", RecordType.A, "9.9.9.9", 60, false, none, none⟩,
    ⟨some "2", "www.example.com", RecordType.A, "1.2.3.4", 60, false, none, none⟩], 3⟩

/-- Concrete state refuting the "no-op" part of the `set_caa_record`
claim: two CAA records with tag `issue`, the second already carrying the
requested value. -/
def cxCaaState : SimState :=
  ⟨[⟨some "1", "www.example.com", RecordType.CAA, "a.org", 60, false, none,
      some [("flags", "0"), ("tag", "issue"), ("value", "a.org")]⟩,
    ⟨some "2", "www.example.com", RecordType.CAA, "b.org", 60, false, none,
      some [("flags", "0"), ("tag", "issue"), ("value", "b.org")]⟩], 3⟩

/-- Concrete state refuting the "no delete" part of the `set_txt_record`
claim: a non-matching TXT record scanned before the quoted match. -/
def cxTxtState : SimState :=
  ⟨[⟨some "1", "www.example.com", RecordType.TXT, "other", 60, false, none, none⟩,
    ⟨some "2", "www.example.com", RecordType.TXT, "\"hello\"", 60, false, none, none⟩], 3⟩

/-- Concrete state for the CAA tag-scoped scenario of the spec: a single
CAA record `(tag=issue, value=letsencrypt.org)` at the name. -/
def cxCaaIssueState : SimState :=
  ⟨[⟨some "1", "www.example.com", RecordType.CAA, "letsencrypt.org", 60, false, none,
      some [("flags", "0"), ("tag", "issue"), ("value", "letsencrypt.org")]⟩], 2⟩

/-- The spec's zone-resolution example listing: `example.com` and
`sub.example.com` as the account's zones, on a single page. -/
def cxZonePages : List (List Zone) :=
  [[⟨"z-example", "example.com"⟩, ⟨"z-sub", "sub.example.com"⟩]]

/-- The spec's zone-resolution example for Linode. -/
def cxLinodeDomains : List LinodeDomain :=
  [⟨11, "example.com"⟩, ⟨22, "sub.example.com"⟩]

/-- An environment with no variable set. -/
def envEmpty : String → Option String := fun _ => none

/-- An environment where only the Linode detection variable is set. -/
def envLinodeOnly : String → Option String :=
  fun k => if k = "LINODE_API_TOKEN" then some "tok" else none

/-- An environment where only `DNS_PROVIDER` is set (mixed case). -/
def envDnsProviderSet : String → Option String :=
  fun k => if k = "DNS_PROVIDER" then some "Namecheap" else none

/-- A host-resolution oracle knowing one target host. -/
def resolveEx : String → Option String :=
  fun h => if h = "target.example.org" then some "93.184.216.34" else none

/-- Concrete state with one pre-existing CNAME at the name (for the Linode
alias-substitution scenario). -/
def cxAliasState : SimState :=
  ⟨[⟨some "1", "www.example.com", RecordType.CNAME, "old.example.org", 60, false, none,
      none⟩], 2⟩

/-- Concrete state with a single non-matching A record at the name. -/
def cxA1State : SimState :=
  ⟨[⟨some "1", "www.example.com", RecordType.A, "9.9.9.9", 60, false, none, none⟩], 2⟩

/-- Concrete state where the first TXT record at the name is the quoted
form of the requested content. -/
def cxTxtQuotedFirstState : SimState :=
  ⟨[⟨some "1", "www.example.com", RecordType.TXT, "\"hello\"", 60, false, none, none⟩], 2⟩

/-- A concrete populated zone-handle cache. -/
def cxCache : ZoneCache := ⟨some "z-sub", some "sub.example.com"⟩

/-! ## Helper lemmas -/

theorem idTruthy_eq_some {oid : Option String} (h : idTruthy oid = true) :
    oid = some (oid.getD "") := by
  cases oid with
  | none => simp [idTruthy] at h
  | some s => rfl

theorem delCalls_cons (name : String) (r : DNSRecord) (rest : List DNSRecord) :
    delCalls name (r :: rest) =
      if idTruthy r.id then PCall.del (r.id.getD "") name :: delCalls name rest
      else delCalls name rest := by
  by_cases h : idTruthy r.id <;> simp [delCalls, List.filter_cons, h]

theorem createCount_delCalls (name : String) (recs : List DNSRecord) :
    createCount (delCalls name recs) = 0 := by
  induction recs with
  | nil => rfl
  | cons r rest ih =>
    rw [delCalls_cons]
    by_cases h : idTruthy r.id <;> simp [h, createCount, List.filter_cons] at ih ⊢ <;>
      exact ih

theorem createCaaCount_delCalls (name : String) (recs : List DNSRecord) :
    createCaaCount (delCalls name recs) = 0 := by
  induction recs with
  | nil => rfl
  | cons r rest ih =>
    rw [delCalls_cons]
    by_cases h : idTruthy r.id <;> simp [h, createCaaCount, List.filter_cons] at ih ⊢ <;>
      exact ih

theorem createCount_append (a b : List PCall) :
    createCount (a ++ b) = createCount a + createCount b := by
  simp [createCount, List.filter_append]

theorem createCaaCount_append (a b : List PCall) :
    createCaaCount (a ++ b) = createCaaCount a + createCaaCount b := by
  simp [createCaaCount, List.filter_append]

/-! ## `set_a_record` loop lemmas -/

theorem setARecordGo_nomatch {σ : Type} (p : Provider σ) (name ip : String)
    (recs : List DNSRecord) :
    ∀ (s : σ) (tr : List PCall), (∀ r ∈ recs, r.content ≠ ip) →
      setARecordGo p name ip recs s tr =
        (false, deleteFold p name recs s, tr ++ delCalls name recs) := by
  induction recs with
  | nil => intro s tr _; simp [setARecordGo, deleteFold, delCalls]
  | cons r rest ih =>
    intro s tr h
    have hr : ¬ r.content = ip := h r (List.mem_cons_self r rest)
    have hrest : ∀ q ∈ rest, q.content ≠ ip :=
      fun q hq => h q (List.mem_cons_of_mem r hq)
    by_cases hid : idTruthy r.id = true
    · simp only [setARecordGo, if_neg hr, hid, if_pos]
      rw [ih _ _ hrest]
      simp [deleteFold, hid, delCalls_cons]
    · simp only [setARecordGo, if_neg hr, hid]
      simp only [Bool.false_eq_true, if_false]
      rw [ih _ _ hrest]
      simp [deleteFold, hid, delCalls_cons]

theorem setARecordGo_match {σ : Type} (p : Provider σ) (name ip : String)
    (recs : List DNSRecord) :
    ∀ (s : σ) (tr : List PCall), (∃ r ∈ recs, r.content = ip) →
      setARecordGo p name ip recs s tr =
        (true,
          deleteFold p name (recs.takeWhile (fun r => !(r.content == ip))) s,
          tr ++ delCalls name (recs.takeWhile (fun r => !(r.content == ip)))) := by
  induction recs with
  | nil => intro s tr h; simp at h
  | cons r rest ih =>
    intro s tr h
    by_cases hr : r.content = ip
    · simp only [setARecordGo, if_pos hr]
      rw [List.takeWhile_cons]
      simp [hr, deleteFold, delCalls]
    · have hrest : ∃ q ∈ rest, q.content = ip := by
        rcases h with ⟨q, hq, hc⟩
        rcases List.mem_cons.mp hq with rfl | hq'
        · exact absurd hc hr
        · exact ⟨q, hq', hc⟩
      rw [List.takeWhile_cons]
      have hb : (!(r.content == ip)) = true := by simp [hr]
      rw [if_pos hb]
      by_cases hid : idTruthy r.id = true
      · simp only [setARecordGo, if_neg hr, hid, if_pos]
        rw [ih _ _ hrest]
        simp [deleteFold, hid, delCalls_cons]
      · simp only [setARecordGo, if_neg hr, hid]
        simp only [Bool.false_eq_true, if_false]
        rw [ih _ _ hrest]
        simp [deleteFold, hid, delCalls_cons]

/-! ## Simulated-provider lemmas -/

theorem idAmong_cons (r : DNSRecord) (rest : List DNSRecord) (q : DNSRecord) :
    idAmong (r :: rest) q =
      ((idTruthy r.id && (q.id == r.id)) || idAmong rest q) := by
  simp [idAmong, List.any_cons]

theorem deleteFold_sim (name : String) (recs : List DNSRecord) :
    ∀ t : SimState, deleteFold simProvider name recs t =
      ⟨t.records.filter (fun q => !(idAmong recs q)), t.nextId⟩ := by
  induction recs with
  | nil =>
    intro t
    simp [deleteFold, idAmong]
  | cons r rest ih =>
    intro t
    by_cases hid : idTruthy r.id = true
    · have hr : r.id = some (r.id.getD "") := idTruthy_eq_some hid
      have step : deleteFold simProvider name (r :: rest) t =
          deleteFold simProvider name rest
            ⟨t.records.filter (fun q => decide (q.id ≠ some (r.id.getD ""))), t.nextId⟩ := by
        simp [deleteFold, hid, simProvider]
      rw [step, ih]
      have hff :
          (List.filter (fun q => decide (q.id ≠ some (r.id.getD ""))) t.records).filter
              (fun q => !(idAmong rest q)) =
            t.records.filter
              (fun q => (!(idAmong rest q)) && decide (q.id ≠ some (r.id.getD ""))) := by
        rw [List.filter_filter]
      simp only [hff]
      have hpt : ∀ q ∈ t.records,
          ((!(idAmong rest q)) && decide (q.id ≠ some (r.id.getD ""))) =
            !(idAmong (r :: rest) q) := by
        intro q _
        rw [idAmong_cons, hid, hr]
        cases hq : q.id == some (r.id.getD "") with
        | true =>
          have hqe : q.id = some (r.id.getD "") := by simpa using hq
          simp [hq, hqe]
        | false =>
          have hqe : ¬ q.id = some (r.id.getD "") := by simpa using hq
          simp [hq, hqe]
      rw [List.filter_congr hpt]
    · have step : deleteFold simProvider name (r :: rest) t =
          deleteFold simProvider name rest t := by
        simp [deleteFold, hid]
      rw [step, ih]
      have : ∀ q ∈ t.records, (!(idAmong rest q)) = !(idAmong (r :: rest) q) := by
        intro q _
        rw [idAmong_cons]
        simp [hid]
      rw [List.filter_congr this]

theorem sim_set_a_record_fresh (t : SimState) (name ip : String) (ttl : Nat)
    (proxied : Bool)
    (hnm : ∀ r ∈ simARecordsAt t name, r.content ≠ ip) :
    set_a_record simProvider t name ip ttl proxied =
      (true,
        ⟨t.records.filter (fun q => !(idAmong (simARecordsAt t name) q)) ++
          [⟨some (toString t.nextId), name, RecordType.A, ip, ttl, proxied, none, none⟩],
         t.nextId + 1⟩,
        delCalls name (simARecordsAt t name) ++
          [PCall.create ⟨none, name, RecordType.A, ip, ttl, proxied, none, none⟩]) := by
  unfold set_a_record
  have hget : (simProvider.get_dns_records t name (some RecordType.A)) =
      (simARecordsAt t name, t) := rfl
  rw [hget]
  dsimp only
  rw [setARecordGo_nomatch simProvider name ip (simARecordsAt t name) t [] hnm]
  rw [deleteFold_sim]
  simp [simProvider]

theorem simARecordsAt_append (t : List DNSRecord) (l : List DNSRecord) (n : Nat)
    (name : String) :
    simARecordsAt ⟨t ++ l, n⟩ name =
      simARecordsAt ⟨t, n⟩ name ++ simARecordsAt ⟨l, n⟩ name := by
  simp [simARecordsAt, List.filter_append]

theorem sim_set_a_record_fresh_records (t : SimState) (name ip : String) (ttl : Nat)
    (proxied : Bool)
    (hnm : ∀ r ∈ simARecordsAt t name, r.content ≠ ip)
    (hid : ∀ r ∈ simARecordsAt t name, idTruthy r.id = true) :
    simARecordsAt (set_a_record simProvider t name ip ttl proxied).2.1 name =
      [⟨some (toString t.nextId), name, RecordType.A, ip, ttl, proxied, none, none⟩] := by
  rw [sim_set_a_record_fresh t name ip ttl proxied hnm]
  rw [show ((true,
      (⟨t.records.filter (fun q => !(idAmong (simARecordsAt t name) q)) ++
        [⟨some (toString t.nextId), name, RecordType.A, ip, ttl, proxied, none, none⟩],
       t.nextId + 1⟩ : SimState),
      delCalls name (simARecordsAt t name) ++
        [PCall.create ⟨none, name, RecordType.A, ip, ttl, proxied, none, none⟩]) :
        Bool × SimState × List PCall).2.1 =
      (⟨t.records.filter (fun q => !(idAmong (simARecordsAt t name) q)) ++
        [⟨some (toString t.nextId), name, RecordType.A, ip, ttl, proxied, none, none⟩],
       t.nextId + 1⟩ : SimState) from rfl]
  rw [simARecordsAt_append]
  have h1 : simARecordsAt
      ⟨t.records.filter (fun q => !(idAmong (simARecordsAt t name) q)), t.nextId + 1⟩
      name = [] := by
    rw [simARecordsAt, List.filter_eq_nil_iff]
    intro q hq
    rcases List.mem_filter.mp hq with ⟨hqmem, hqkeep⟩
    intro hmatch
    have hqrec : q ∈ simARecordsAt t name :=
      List.mem_filter.mpr ⟨hqmem, hmatch⟩
    have : idAmong (simARecordsAt t name) q = true := by
      rw [idAmong, List.any_eq_true]
      exact ⟨q, hqrec, by simp [hid q hqrec]⟩
    simp [this] at hqkeep
  rw [h1]
  simp [simARecordsAt, simMatches]

theorem sim_set_a_record_noop (t : SimState) (name ip : String) (ttl : Nat)
    (proxied : Bool) (r₀ : DNSRecord) (rest : List DNSRecord)
    (hhead : simARecordsAt t name = r₀ :: rest) (hc : r₀.content = ip) :
    set_a_record simProvider t name ip ttl proxied = (true, t, []) := by
  unfold set_a_record
  have hget : (simProvider.get_dns_records t name (some RecordType.A)) =
      (simARecordsAt t name, t) := rfl
  rw [hget, hhead]
  simp [setARecordGo, hc]

/-! ## Claim C1 -/

/-- C1, counterexample: against a simulated state holding two A records at
the name — the second one already carrying the requested IP —
`set_a_record` returns `True` (an existing record matches) yet issues one
delete call, so "returns true without performing any delete or create
call" is false. -/
theorem c1_counterexample :
    (∃ r ∈ (simProvider.get_dns_records cxAState "www.example.com"
        (some RecordType.A)).1, r.content = "1.2.3.4") ∧
    (set_a_record simProvider cxAState "www.example.com" "1.2.3.4" 60 false).1 = true ∧
    delCount
      (set_a_record simProvider cxAState "www.example.com" "1.2.3.4" 60 false).2.2 = 1 := by
  refine ⟨?_, ?_, ?_⟩ <;> decide

/-- C1 (amended): `set_a_record` scans the fetched A records in order.
When some fetched record carries the requested IP it returns `True` upon
reaching the first such record, creating nothing and having deleted
exactly the earlier-scanned records that carry ids; when none does, it
deletes every fetched record with an id and then creates exactly one A
record with the requested ip, ttl and proxied flag, returning the
create's success flag.  Against the simulated provider, when no
pre-existing A record at the name carries the requested IP and all carry
ids, two calls in sequence leave exactly one A record at the name — with
that IP — and the second call returns `True` performing zero
delete/create calls (it does not change the state at all). -/
theorem c1_set_a_record :
    (∀ (σ : Type) (p : Provider σ) (s : σ) (name ip : String) (ttl : Nat)
        (proxied : Bool),
      ((∃ r ∈ (p.get_dns_records s name (some RecordType.A)).1, r.content = ip) →
        (set_a_record p s name ip ttl proxied).1 = true ∧
        (set_a_record p s name ip ttl proxied).2.2 =
          delCalls name
            (((p.get_dns_records s name (some RecordType.A)).1).takeWhile
              (fun r => !(r.content == ip))) ∧
        createCount (set_a_record p s name ip ttl proxied).2.2 = 0) ∧
      ((∀ r ∈ (p.get_dns_records s name (some RecordType.A)).1, r.content ≠ ip) →
        (set_a_record p s name ip ttl proxied).2.2 =
          delCalls name (p.get_dns_records s name (some RecordType.A)).1 ++
            [PCall.create ⟨none, name, RecordType.A, ip, ttl, proxied, none, none⟩] ∧
        (set_a_record p s name ip ttl proxied).1 =
          (p.create_dns_record
            (deleteFold p name (p.get_dns_records s name (some RecordType.A)).1
              (p.get_dns_records s name (some RecordType.A)).2)
            ⟨none, name, RecordType.A, ip, ttl, proxied, none, none⟩).1 ∧
        createCount (set_a_record p s name ip ttl proxied).2.2 = 1)) ∧
    (∀ (t : SimState) (name ip : String) (ttl : Nat) (proxied : Bool),
      (∀ r ∈ simARecordsAt t name, r.content ≠ ip) →
      (∀ r ∈ simARecordsAt t name, idTruthy r.id = true) →
      (set_a_record simProvider t name ip ttl proxied).1 = true ∧
      simARecordsAt (set_a_record simProvider t name ip ttl proxied).2.1 name =
        [⟨some (toString t.nextId), name, RecordType.A, ip, ttl, proxied, none, none⟩] ∧
      set_a_record simProvider
        (set_a_record simProvider t name ip ttl proxied).2.1 name ip ttl proxied =
        (true, (set_a_record simProvider t name ip ttl proxied).2.1, [])) := by
  constructor
  · intro σ p s name ip ttl proxied
    constructor
    · intro hex
      unfold set_a_record
      dsimp only
      rw [setARecordGo_match p name ip _ _ _ hex]
      refine ⟨rfl, by simp, ?_⟩
      simp [createCount_delCalls]
    · intro hnm
      unfold set_a_record
      dsimp only
      rw [setARecordGo_nomatch p name ip _ _ _ hnm]
      refine ⟨by simp, rfl, ?_⟩
      rw [createCount_append, List.nil_append, createCount_delCalls]
      rfl
  · intro t name ip ttl proxied hnm hid
    have hrecs := sim_set_a_record_fresh_records t name ip ttl proxied hnm hid
    refine ⟨?_, hrecs, ?_⟩
    · rw [sim_set_a_record_fresh t name ip ttl proxied hnm]
    · exact sim_set_a_record_noop _ name ip ttl proxied _ [] hrecs rfl

/-- Witness for C1's amended theorem at a concrete simulated state with a
single non-matching A record. -/
theorem c1_set_a_record_witness :
    (set_a_record simProvider cxA1State "www.example.com" "1.2.3.4" 60 false).1 = true ∧
    simARecordsAt
      (set_a_record simProvider cxA1State "www.example.com" "1.2.3.4" 60 false).2.1
      "www.example.com" =
      [⟨some (toString cxA1State.nextId), "www.example.com", RecordType.A, "1.2.3.4",
        60, false, none, none⟩] ∧
    set_a_record simProvider
      (set_a_record simProvider cxA1State "www.example.com" "1.2.3.4" 60 false).2.1
      "www.example.com" "1.2.3.4" 60 false =
      (true,
        (set_a_record simProvider cxA1State "www.example.com" "1.2.3.4" 60 false).2.1,
        []) :=
  c1_set_a_record.2 cxA1State "www.example.com" "1.2.3.4" 60 false
    (by decide) (by decide)

/-! ## `set_txt_record` loop lemmas -/

theorem txtMatch_iff (content : String) (r : DNSRecord) :
    txtMatch content r = true ↔
      (r.content = content ∨ r.content = "\"" ++ content ++ "\"") := by
  simp [txtMatch]

theorem setTxtRecordGo_nomatch {σ : Type} (p : Provider σ) (name content : String)
    (recs : List DNSRecord) :
    ∀ (s : σ) (tr : List PCall), (∀ r ∈ recs, txtMatch content r = false) →
      setTxtRecordGo p name content recs s tr =
        (false, deleteFold p name recs s, tr ++ delCalls name recs) := by
  induction recs with
  | nil => intro s tr _; simp [setTxtRecordGo, deleteFold, delCalls]
  | cons r rest ih =>
    intro s tr h
    have hr0 : txtMatch content r = false := h r (List.mem_cons_self r rest)
    have hr : ¬ (r.content = content ∨ r.content = "\"" ++ content ++ "\"") := by
      rw [← txtMatch_iff, hr0]; simp
    have hrest : ∀ q ∈ rest, txtMatch content q = false :=
      fun q hq => h q (List.mem_cons_of_mem r hq)
    by_cases hid : idTruthy r.id = true
    · simp only [setTxtRecordGo, if_neg hr, hid, if_pos]
      rw [ih _ _ hrest]
      simp [deleteFold, hid, delCalls_cons]
    · simp only [setTxtRecordGo, if_neg hr, hid]
      simp only [Bool.false_eq_true, if_false]
      rw [ih _ _ hrest]
      simp [deleteFold, hid, delCalls_cons]

theorem setTxtRecordGo_match {σ : Type} (p : Provider σ) (name content : String)
    (recs : List DNSRecord) :
    ∀ (s : σ) (tr : List PCall), (∃ r ∈ recs, txtMatch content r = true) →
      setTxtRecordGo p name content recs s tr =
        (true,
          deleteFold p name (recs.takeWhile (fun r => !(txtMatch content r))) s,
          tr ++ delCalls name (recs.takeWhile (fun r => !(txtMatch content r)))) := by
  induction recs with
  | nil => intro s tr h; simp at h
  | cons r rest ih =>
    intro s tr h
    by_cases hr : txtMatch content r = true
    · have hrp : r.content = content ∨ r.content = "\"" ++ content ++ "\"" :=
        (txtMatch_iff content r).mp hr
      simp only [setTxtRecordGo, if_pos hrp]
      rw [List.takeWhile_cons]
      simp [hr, deleteFold, delCalls]
    · have hrp : ¬ (r.content = content ∨ r.content = "\"" ++ content ++ "\"") := by
        rw [← txtMatch_iff]; exact hr
      have hrest : ∃ q ∈ rest, txtMatch content q = true := by
        rcases h with ⟨q, hq, hc⟩
        rcases List.mem_cons.mp hq with rfl | hq'
        · exact absurd hc hr
        · exact ⟨q, hq', hc⟩
      rw [List.takeWhile_cons]
      have hb : (!(txtMatch content r)) = true := by
        simp [Bool.eq_false_iff.mpr hr]
      rw [if_pos hb]
      by_cases hid : idTruthy r.id = true
      · simp only [setTxtRecordGo, if_neg hrp, hid, if_pos]
        rw [ih _ _ hrest]
        simp [deleteFold, hid, delCalls_cons]
      · simp only [setTxtRecordGo, if_neg hrp, hid]
        simp only [Bool.false_eq_true, if_false]
        rw [ih _ _ hrest]
        simp [deleteFold, hid, delCalls_cons]

/-! ## Claim C7 -/

/-- C7, counterexample: the quoted no-op check does fire, but "without
performing any delete" is false — a non-matching TXT record scanned before
the quoted match has already been deleted. -/
theorem c7_counterexample :
    (∃ r ∈ (simProvider.get_dns_records cxTxtState "www.example.com"
        (some RecordType.TXT)).1, r.content = "\"" ++ "hello" ++ "\"") ∧
    (set_txt_record simProvider cxTxtState "www.example.com" "hello" 60).1 = true ∧
    delCount
      (set_txt_record simProvider cxTxtState "www.example.com" "hello" 60).2.2 = 1 := by
  refine ⟨?_, ?_, ?_⟩ <;> decide

/-- C7 (amended): the no-op equality check of `set_txt_record` treats a
stored TXT content equal to the requested value wrapped in literal double
quotes as equal to the (unquoted) requested content: whenever such a
record (or a plain match) is among the fetched records the call returns
`True` and creates nothing, with its delete calls confined to the
non-matching records scanned before the first match; in particular when
the first fetched TXT record is the quoted match the call performs no
delete or create call at all. -/
theorem c7_set_txt_record :
    (∀ (σ : Type) (p : Provider σ) (s : σ) (name content : String) (ttl : Nat),
      ((∃ r ∈ (p.get_dns_records s name (some RecordType.TXT)).1,
          r.content = "\"" ++ content ++ "\"") →
        (set_txt_record p s name content ttl).1 = true ∧
        createCount (set_txt_record p s name content ttl).2.2 = 0 ∧
        (set_txt_record p s name content ttl).2.2 =
          delCalls name
            (((p.get_dns_records s name (some RecordType.TXT)).1).takeWhile
              (fun r => !(txtMatch content r))))) ∧
    (∀ (σ : Type) (p : Provider σ) (s : σ) (name content : String) (ttl : Nat)
        (r₀ : DNSRecord) (rest : List DNSRecord),
      (p.get_dns_records s name (some RecordType.TXT)).1 = r₀ :: rest →
      r₀.content = "\"" ++ content ++ "\"" →
      set_txt_record p s name content ttl =
        (true, (p.get_dns_records s name (some RecordType.TXT)).2, [])) := by
  constructor
  · intro σ p s name content ttl hex
    have hex' : ∃ r ∈ (p.get_dns_records s name (some RecordType.TXT)).1,
        txtMatch content r = true := by
      rcases hex with ⟨r, hr, hc⟩
      exact ⟨r, hr, (txtMatch_iff content r).mpr (Or.inr hc)⟩
    unfold set_txt_record
    dsimp only
    rw [setTxtRecordGo_match p name content _ _ _ hex']
    exact ⟨rfl, createCount_delCalls _ _, by simp⟩
  · intro σ p s name content ttl r₀ rest hrecs hq
    unfold set_txt_record
    dsimp only
    rw [hrecs]
    have hcond : r₀.content = content ∨ r₀.content = "\"" ++ content ++ "\"" :=
      Or.inr hq
    simp [setTxtRecordGo, hcond]

/-- Witness for C7's amended theorem: the single TXT record at the name is
the quoted form of the requested content, and the call issues no calls. -/
theorem c7_set_txt_record_witness :
    set_txt_record simProvider cxTxtQuotedFirstState "www.example.com" "hello" 60 =
      (true,
        (simProvider.get_dns_records cxTxtQuotedFirstState "www.example.com"
          (some RecordType.TXT)).2,
        []) :=
  c7_set_txt_record.2 SimState simProvider cxTxtQuotedFirstState "www.example.com"
    "hello" 60
    ⟨some "1", "www.example.com", RecordType.TXT, "\"hello\"", 60, false, none, none⟩
    [] (by decide) (by decide)

/-! ## `set_caa_record` loop lemmas -/

theorem caaKeyMatch_iff (tag : String) (r : DNSRecord) :
    caaKeyMatch tag r = true ↔
      (dataTruthy r.data = true ∧ dataGet r.data "tag" = some tag) := by
  simp [caaKeyMatch]

theorem caaNoopMatch_iff (tag value : String) (r : DNSRecord) :
    caaNoopMatch tag value r = true ↔
      (caaKeyMatch tag r = true ∧ dataGet r.data "value" = some value) := by
  simp [caaNoopMatch]

theorem mem_delCalls {name rid dom : String} {l : List DNSRecord}
    (h : PCall.del rid dom ∈ delCalls name l) :
    dom = name ∧ ∃ r ∈ l, r.id = some rid := by
  rcases List.mem_map.mp h with ⟨r, hrf, heq⟩
  rcases List.mem_filter.mp hrf with ⟨hrl, hrid⟩
  have hinj : r.id.getD "" = rid ∧ name = dom := by
    injection heq with h1 h2
    exact ⟨h1, h2⟩
  refine ⟨hinj.2.symm, r, hrl, ?_⟩
  rw [idTruthy_eq_some hrid, hinj.1]

theorem caaConflicts_cons (tag value : String) (r : DNSRecord)
    (rest : List DNSRecord) :
    caaConflicts tag value (r :: rest) =
      if caaKeyMatch tag r && !(dataGet r.data "value" == some value) then
        r :: caaConflicts tag value rest
      else caaConflicts tag value rest := by
  by_cases h : (caaKeyMatch tag r && !(dataGet r.data "value" == some value)) = true <;>
    simp [caaConflicts, List.filter_cons, h]

theorem setCaaRecordGo_nomatch {σ : Type} (p : Provider σ) (name tag value : String)
    (recs : List DNSRecord) :
    ∀ (s : σ) (tr : List PCall), (∀ r ∈ recs, caaNoopMatch tag value r = false) →
      setCaaRecordGo p name tag value recs s tr =
        (false, deleteFold p name (caaConflicts tag value recs) s,
          tr ++ delCalls name (caaConflicts tag value recs)) := by
  induction recs with
  | nil => intro s tr _; simp [setCaaRecordGo, deleteFold, delCalls, caaConflicts]
  | cons r rest ih =>
    intro s tr h
    have hr0 : caaNoopMatch tag value r = false := h r (List.mem_cons_self r rest)
    have hrest : ∀ q ∈ rest, caaNoopMatch tag value q = false :=
      fun q hq => h q (List.mem_cons_of_mem r hq)
    by_cases hk : (dataTruthy r.data ∧ dataGet r.data "tag" = some tag)
    · have hkb : caaKeyMatch tag r = true := (caaKeyMatch_iff tag r).mpr hk
      have hv : ¬ dataGet r.data "value" = some value := by
        intro hveq
        have : caaNoopMatch tag value r = true :=
          (caaNoopMatch_iff tag value r).mpr ⟨hkb, hveq⟩
        rw [this] at hr0; cases hr0
      have hcc : caaConflicts tag value (r :: rest) =
          r :: caaConflicts tag value rest := by
        rw [caaConflicts_cons]
        simp [hkb, hv]
      by_cases hid : idTruthy r.id = true
      · simp only [setCaaRecordGo, if_pos hk, if_neg hv, hid, if_pos]
        rw [ih _ _ hrest, hcc]
        simp [deleteFold, hid, delCalls_cons]
      · simp only [setCaaRecordGo, if_pos hk, if_neg hv, hid]
        simp only [Bool.false_eq_true, if_false]
        rw [ih _ _ hrest, hcc]
        simp [deleteFold, hid, delCalls_cons]
    · have hkb : caaKeyMatch tag r = false := by
        rw [Bool.eq_false_iff]
        intro hx
        exact hk ((caaKeyMatch_iff tag r).mp hx)
      have hcc : caaConflicts tag value (r :: rest) = caaConflicts tag value rest := by
        rw [caaConflicts_cons]
        simp [hkb]
      simp only [setCaaRecordGo, if_neg hk]
      rw [ih _ _ hrest, hcc]

theorem setCaaRecordGo_match {σ : Type} (p : Provider σ) (name tag value : String)
    (recs : List DNSRecord) :
    ∀ (s : σ) (tr : List PCall), (∃ r ∈ recs, caaNoopMatch tag value r = true) →
      setCaaRecordGo p name tag value recs s tr =
        (true,
          deleteFold p name
            (caaConflicts tag value
              (recs.takeWhile (fun r => !(caaNoopMatch tag value r)))) s,
          tr ++ delCalls name
            (caaConflicts tag value
              (recs.takeWhile (fun r => !(caaNoopMatch tag value r))))) := by
  induction recs with
  | nil => intro s tr h; simp at h
  | cons r rest ih =>
    intro s tr h
    by_cases hr : caaNoopMatch tag value r = true
    · rcases (caaNoopMatch_iff tag value r).mp hr with ⟨hkb, hveq⟩
      have hk : dataTruthy r.data ∧ dataGet r.data "tag" = some tag := by
        have := (caaKeyMatch_iff tag r).mp hkb
        exact ⟨this.1, this.2⟩
      simp only [setCaaRecordGo, if_pos hk, if_pos hveq]
      rw [List.takeWhile_cons]
      simp [hr, deleteFold, delCalls, caaConflicts]
    · have hrest : ∃ q ∈ rest, caaNoopMatch tag value q = true := by
        rcases h with ⟨q, hq, hc⟩
        rcases List.mem_cons.mp hq with rfl | hq'
        · exact absurd hc hr
        · exact ⟨q, hq', hc⟩
      rw [List.takeWhile_cons]
      have hb : (!(caaNoopMatch tag value r)) = true := by
        simp [Bool.eq_false_iff.mpr hr]
      rw [if_pos hb]
      by_cases hk : (dataTruthy r.data ∧ dataGet r.data "tag" = some tag)
      · have hkb : caaKeyMatch tag r = true := (caaKeyMatch_iff tag r).mpr hk
        have hv : ¬ dataGet r.data "value" = some value := by
          intro hveq
          exact hr ((caaNoopMatch_iff tag value r).mpr ⟨hkb, hveq⟩)
        have hcc : caaConflicts tag value
            (r :: rest.takeWhile (fun q => !(caaNoopMatch tag value q))) =
            r :: caaConflicts tag value
              (rest.takeWhile (fun q => !(caaNoopMatch tag value q))) := by
          rw [caaConflicts_cons]
          simp [hkb, hv]
        by_cases hid : idTruthy r.id = true
        · simp only [setCaaRecordGo, if_pos hk, if_neg hv, hid, if_pos]
          rw [ih _ _ hrest, hcc]
          simp [deleteFold, hid, delCalls_cons]
        · simp only [setCaaRecordGo, if_pos hk, if_neg hv, hid]
          simp only [Bool.false_eq_true, if_false]
          rw [ih _ _ hrest, hcc]
          simp [deleteFold, hid, delCalls_cons]
      · have hkb : caaKeyMatch tag r = false := by
          rw [Bool.eq_false_iff]
          intro hx
          exact hk ((caaKeyMatch_iff tag r).mp hx)
        have hcc : caaConflicts tag value
            (r :: rest.takeWhile (fun q => !(caaNoopMatch tag value q))) =
            caaConflicts tag value
              (rest.takeWhile (fun q => !(caaNoopMatch tag value q))) := by
          rw [caaConflicts_cons]
          simp [hkb]
        simp only [setCaaRecordGo, if_neg hk]
        rw [ih _ _ hrest, hcc]

theorem set_caa_record_match_eq {σ : Type} (p : Provider σ) (s : σ)
    (name tag value : String) (flags ttl : Nat)
    (hex : ∃ r ∈ (p.get_dns_records s name (some RecordType.CAA)).1,
      caaNoopMatch tag value r = true) :
    set_caa_record p s name tag value flags ttl =
      (true,
        deleteFold p name
          (caaConflicts tag value
            (((p.get_dns_records s name (some RecordType.CAA)).1).takeWhile
              (fun r => !(caaNoopMatch tag value r))))
          (p.get_dns_records s name (some RecordType.CAA)).2,
        delCalls name
          (caaConflicts tag value
            (((p.get_dns_records s name (some RecordType.CAA)).1).takeWhile
              (fun r => !(caaNoopMatch tag value r))))) := by
  unfold set_caa_record
  dsimp only
  rw [setCaaRecordGo_match p name tag value _ _ _ hex]
  simp

theorem set_caa_record_nomatch_eq {σ : Type} (p : Provider σ) (s : σ)
    (name tag value : String) (flags ttl : Nat)
    (hnm : ∀ r ∈ (p.get_dns_records s name (some RecordType.CAA)).1,
      caaNoopMatch tag value r = false) :
    set_caa_record p s name tag value flags ttl =
      ((p.create_caa_record
          (deleteFold p name
            (caaConflicts tag value (p.get_dns_records s name (some RecordType.CAA)).1)
            (p.get_dns_records s name (some RecordType.CAA)).2)
          ⟨name, flags, tag, value, ttl⟩).1,
        (p.create_caa_record
          (deleteFold p name
            (caaConflicts tag value (p.get_dns_records s name (some RecordType.CAA)).1)
            (p.get_dns_records s name (some RecordType.CAA)).2)
          ⟨name, flags, tag, value, ttl⟩).2,
        delCalls name
          (caaConflicts tag value (p.get_dns_records s name (some RecordType.CAA)).1)
          ++ [PCall.createCaa ⟨name, flags, tag, value, ttl⟩]) := by
  unfold set_caa_record
  dsimp only
  rw [setCaaRecordGo_nomatch p name tag value _ _ _ hnm]
  simp

/-! ## Claim C3 -/

/-- C3, counterexample: with two CAA records of tag `issue` at the name —
the second already carrying the requested value — `set_caa_record` returns
`True` (same tag and value exist) yet has already deleted the first
record, so the "no-op returning true" part of the claim is false. -/
theorem c3_counterexample :
    (∃ r ∈ (simProvider.get_dns_records cxCaaState "www.example.com"
        (some RecordType.CAA)).1,
      dataGet r.data "tag" = some "issue" ∧ dataGet r.data "value" = some "b.org") ∧
    (set_caa_record simProvider cxCaaState "www.example.com" "issue" "b.org" 0 60).1
      = true ∧
    delCount
      (set_caa_record simProvider cxCaaState "www.example.com" "issue" "b.org" 0 60).2.2
      = 1 := by
  refine ⟨?_, ?_, ?_⟩ <;> decide

/-- C3 (amended): `set_caa_record` scans the fetched CAA records in order.
When some fetched record carries the requested tag and value it returns
`True` upon reaching the first such record, creating nothing, its deletes
confined to the same-tag different-value records scanned before it; when
none does, it deletes every fetched same-tag different-value record (with
an id) and creates exactly one new record with the requested tag and
value; records with a different tag are never deleted.  Concretely, on the
simulated provider holding a single `(issue, letsencrypt.org)` CAA record:
requesting `(issue, other-ca.org)` deletes the old record and creates
exactly one record with the new value, while requesting
`(issuewild, letsencrypt.org)` leaves the original record untouched and
adds a second one. -/
theorem c3_set_caa_record :
    (∀ (σ : Type) (p : Provider σ) (s : σ) (name tag value : String)
        (flags ttl : Nat),
      ((∃ r ∈ (p.get_dns_records s name (some RecordType.CAA)).1,
          caaNoopMatch tag value r = true) →
        (set_caa_record p s name tag value flags ttl).1 = true ∧
        createCaaCount (set_caa_record p s name tag value flags ttl).2.2 = 0 ∧
        (set_caa_record p s name tag value flags ttl).2.2 =
          delCalls name
            (caaConflicts tag value
              (((p.get_dns_records s name (some RecordType.CAA)).1).takeWhile
                (fun r => !(caaNoopMatch tag value r))))) ∧
      ((∀ r ∈ (p.get_dns_records s name (some RecordType.CAA)).1,
          caaNoopMatch tag value r = false) →
        (set_caa_record p s name tag value flags ttl).2.2 =
          delCalls name
            (caaConflicts tag value (p.get_dns_records s name (some RecordType.CAA)).1)
            ++ [PCall.createCaa ⟨name, flags, tag, value, ttl⟩] ∧
        createCaaCount (set_caa_record p s name tag value flags ttl).2.2 = 1)) ∧
    (delCount
        (set_caa_record simProvider cxCaaIssueState "www.example.com" "issue"
          "other-ca.org" 0 60).2.2 = 1 ∧
      createCaaCount
        (set_caa_record simProvider cxCaaIssueState "www.example.com" "issue"
          "other-ca.org" 0 60).2.2 = 1 ∧
      simCaaRecordsAt
        (set_caa_record simProvider cxCaaIssueState "www.example.com" "issue"
          "other-ca.org" 0 60).2.1 "www.example.com" =
        [⟨some "2", "www.example.com", RecordType.CAA, "other-ca.org", 60, false, none,
          some [("flags", "0"), ("tag", "issue"), ("value", "other-ca.org")]⟩]) ∧
    (delCount
        (set_caa_record simProvider cxCaaIssueState "www.example.com" "issuewild"
          "letsencrypt.org" 0 60).2.2 = 0 ∧
      simCaaRecordsAt
        (set_caa_record simProvider cxCaaIssueState "www.example.com" "issuewild"
          "letsencrypt.org" 0 60).2.1 "www.example.com" =
        [⟨some "1", "www.example.com", RecordType.CAA, "letsencrypt.org", 60, false,
          none, some [("flags", "0"), ("tag", "issue"), ("value", "letsencrypt.org")]⟩,
         ⟨some "2", "www.example.com", RecordType.CAA, "letsencrypt.org", 60, false,
          none,
          some [("flags", "0"), ("tag", "issuewild"), ("value", "letsencrypt.org")]⟩]) := by
  refine ⟨?_, by refine ⟨?_, ?_, ?_⟩ <;> decide, by refine ⟨?_, ?_⟩ <;> decide⟩
  intro σ p s name tag value flags ttl
  constructor
  · intro hex
    have htr := set_caa_record_match_eq p s name tag value flags ttl hex
    rw [htr]
    exact ⟨rfl, createCaaCount_delCalls _ _, rfl⟩
  · intro hnm
    have htr := set_caa_record_nomatch_eq p s name tag value flags ttl hnm
    rw [htr]
    refine ⟨rfl, ?_⟩
    rw [show ((_, _,
        delCalls name
          (caaConflicts tag value (p.get_dns_records s name (some RecordType.CAA)).1)
          ++ [PCall.createCaa ⟨name, flags, tag, value, ttl⟩]) :
        Bool × σ × List PCall).2.2 =
        delCalls name
          (caaConflicts tag value (p.get_dns_records s name (some RecordType.CAA)).1)
          ++ [PCall.createCaa ⟨name, flags, tag, value, ttl⟩] from rfl]
    rw [createCaaCount_append, createCaaCount_delCalls]
    rfl

/-- Witness for C3's amended theorem: a single same-tag different-value
record is replaced — one delete, one create. -/
theorem c3_set_caa_record_witness :
    (set_caa_record simProvider cxCaaIssueState "www.example.com" "issue"
        "other-ca.org" 0 60).2.2 =
      delCalls "www.example.com"
        (caaConflicts "issue" "other-ca.org"
          (simProvider.get_dns_records cxCaaIssueState "www.example.com"
            (some RecordType.CAA)).1)
        ++ [PCall.createCaa ⟨"www.example.com", 0, "issue", "other-ca.org", 60⟩] ∧
    createCaaCount
      (set_caa_record simProvider cxCaaIssueState "www.example.com" "issue"
        "other-ca.org" 0 60).2.2 = 1 :=
  (c3_set_caa_record.1 SimState simProvider cxCaaIssueState "www.example.com" "issue"
    "other-ca.org" 0 60).2 (by decide)

/-! ## Claim C10 -/

/-- C10: every delete call issued by `set_caa_record` targets a fetched
record carrying a truthy (non-`None`, non-empty) `data` dict whose `tag`
entry equals the requested tag and whose `value` entry differs from the
requested value — so records with `data` `None` or empty, and records
with a different tag, are never deleted; and the early no-op success
(recognizable as a run with no create call) only ever fires on a record
with a truthy `data` dict carrying the requested tag and value. -/
theorem c10_caa_data_frame :
    ∀ (σ : Type) (p : Provider σ) (s : σ) (name tag value : String)
      (flags ttl : Nat),
      (∀ rid dom,
        PCall.del rid dom ∈ (set_caa_record p s name tag value flags ttl).2.2 →
        ∃ r ∈ (p.get_dns_records s name (some RecordType.CAA)).1,
          r.id = some rid ∧ dataTruthy r.data = true ∧
          dataGet r.data "tag" = some tag ∧ ¬ dataGet r.data "value" = some value) ∧
      (createCaaCount (set_caa_record p s name tag value flags ttl).2.2 = 0 →
        ∃ r ∈ (p.get_dns_records s name (some RecordType.CAA)).1,
          dataTruthy r.data = true ∧ dataGet r.data "tag" = some tag ∧
          dataGet r.data "value" = some value) := by
  intro σ p s name tag value flags ttl
  by_cases hex : ∃ r ∈ (p.get_dns_records s name (some RecordType.CAA)).1,
      caaNoopMatch tag value r = true
  · have htr : (set_caa_record p s name tag value flags ttl).2.2 =
        delCalls name
          (caaConflicts tag value
            (((p.get_dns_records s name (some RecordType.CAA)).1).takeWhile
              (fun r => !(caaNoopMatch tag value r)))) := by
      rw [set_caa_record_match_eq p s name tag value flags ttl hex]
    constructor
    · intro rid dom hmem
      rw [htr] at hmem
      rcases mem_delCalls hmem with ⟨-, r, hrl, hrid⟩
      rcases List.mem_filter.mp hrl with ⟨hrtw, hrc⟩
      have hrrec : r ∈ (p.get_dns_records s name (some RecordType.CAA)).1 :=
        (List.takeWhile_sublist _).subset hrtw
      rw [Bool.and_eq_true] at hrc
      rcases hrc with ⟨hkb, hvb⟩
      rcases (caaKeyMatch_iff tag r).mp hkb with ⟨hdt, hdg⟩
      refine ⟨r, hrrec, hrid, hdt, hdg, ?_⟩
      intro hveq
      simp [hveq] at hvb
    · intro _
      rcases hex with ⟨r, hrl, hno⟩
      rcases (caaNoopMatch_iff tag value r).mp hno with ⟨hkb, hveq⟩
      rcases (caaKeyMatch_iff tag r).mp hkb with ⟨hdt, hdg⟩
      exact ⟨r, hrl, hdt, hdg, hveq⟩
  · have hnm : ∀ r ∈ (p.get_dns_records s name (some RecordType.CAA)).1,
        caaNoopMatch tag value r = false := by
      intro r hr
      rw [Bool.eq_false_iff]
      intro hx
      exact hex ⟨r, hr, hx⟩
    have htr : (set_caa_record p s name tag value flags ttl).2.2 =
        delCalls name
          (caaConflicts tag value (p.get_dns_records s name (some RecordType.CAA)).1)
          ++ [PCall.createCaa ⟨name, flags, tag, value, ttl⟩] := by
      rw [set_caa_record_nomatch_eq p s name tag value flags ttl hnm]
    constructor
    · intro rid dom hmem
      rw [htr] at hmem
      rcases List.mem_append.mp hmem with hmem' | hmem'
      · rcases mem_delCalls hmem' with ⟨-, r, hrl, hrid⟩
        rcases List.mem_filter.mp hrl with ⟨hrrec, hrc⟩
        rw [Bool.and_eq_true] at hrc
        rcases hrc with ⟨hkb, hvb⟩
        rcases (caaKeyMatch_iff tag r).mp hkb with ⟨hdt, hdg⟩
        refine ⟨r, hrrec, hrid, hdt, hdg, ?_⟩
        intro hveq
        simp [hveq] at hvb
      · simp at hmem'
    · intro hzero
      rw [htr, createCaaCount_append, createCaaCount_delCalls] at hzero
      cases hzero

/-- Witness for C10 at a concrete state: the no-op run (no create call)
indeed exhibits a fetched record with matching structured tag and value. -/
theorem c10_caa_data_frame_witness :
    ∃ r ∈ (simProvider.get_dns_records cxCaaIssueState "www.example.com"
        (some RecordType.CAA)).1,
      dataTruthy r.data = true ∧ dataGet r.data "tag" = some "issue" ∧
      dataGet r.data "value" = some "letsencrypt.org" :=
  (c10_caa_data_frame SimState simProvider cxCaaIssueState "www.example.com" "issue"
    "letsencrypt.org" 0 60).2 (by decide)

/-! ## Claim C8 -/

/-- C8: for every CAA record, the Namecheap adapter's `create_caa_record`
returns `True` and issues no API request at all. -/
theorem c8_namecheap_caa_noop (caa : CAARecord) :
    nc_create_caa_record caa = (true, []) := rfl

/-! ## Claim C5 -/

/-- C5, counterexample: for Namecheap, `create_caa_record` returns `True`
even for a name from which no domain can be derived (`localhost` has no
registrable SLD/TLD split), contradicting "createCaaRecord returns
false". -/
theorem c5_counterexample :
    nc_get_domain_info "localhost" = none ∧
    (nc_create_caa_record ⟨"localhost", 0, "issue", "letsencrypt.org", 60⟩).1 = true := by
  exact ⟨rfl, rfl⟩

/-- C5 (amended): when zone resolution finds nothing, the Cloudflare and
Linode adapters return an empty list from `get_dns_records` and `false`
from `create_dns_record`/`create_caa_record` (starting from an empty
handle cache, with no zone/domain matching the name), and the Namecheap
adapter returns an empty list from `get_dns_records` and `false` from
`create_dns_record` when the domain cannot be derived from the name —
but Namecheap's `create_caa_record` returns `True` unconditionally.
All of these are ordinary returns, not exceptions. -/
theorem c5_resolution_failure :
    (∀ (pages : List (List Zone))
        (lr : String → String → Option RecordType → Option (List DNSRecord))
        (postR : String → DNSRecord → Bool) (postC : String → CAARecord → Bool)
        (name : String) (rt : Option RecordType) (record : DNSRecord)
        (caa : CAARecord),
      get_zone_info pages name = none →
      record.name = name → caa.name = name →
      (cf_get_dns_records pages lr ⟨none, none⟩ name rt).1 = [] ∧
      (cf_create_dns_record pages postR ⟨none, none⟩ record).1 = false ∧
      (cf_create_caa_record pages postC ⟨none, none⟩ caa).1 = false) ∧
    (∀ (domains : List LinodeDomain)
        (lr : String → String → Option RecordType → Option (List DNSRecord))
        (postR : String → DNSRecord → Bool) (postC : String → CAARecord → Bool)
        (name : String) (rt : Option RecordType) (record : DNSRecord)
        (caa : CAARecord),
      ln_get_zone_id domains name = none →
      record.name = name → caa.name = name →
      (ln_get_dns_records domains lr ⟨none, none⟩ name rt).1 = [] ∧
      (ln_create_dns_record domains postR ⟨none, none⟩ record).1 = false ∧
      (ln_create_caa_record domains postC ⟨none, none⟩ caa).1 = false) ∧
    (∀ (getHosts : String → String → Option (List DNSRecord))
        (setHosts : String → String → DNSRecord → Bool)
        (name : String) (rt : Option RecordType) (record : DNSRecord)
        (caa : CAARecord),
      nc_get_domain_info name = none →
      record.name = name →
      nc_get_dns_records getHosts name rt = [] ∧
      nc_create_dns_record setHosts record = false ∧
      (nc_create_caa_record caa).1 = true) := by
  refine ⟨?_, ?_, ?_⟩
  · intro pages lr postR postC name rt record caa hz hrn hcn
    have hcov : cacheCovers ⟨none, none⟩ name = false := rfl
    have he : cf_ensure_zone_id pages ⟨none, none⟩ name =
        ((⟨none, none⟩ : ZoneCache).zone_id, ⟨none, none⟩, true) := by
      unfold cf_ensure_zone_id
      rw [hcov, hz]
      simp
    refine ⟨?_, ?_, ?_⟩
    · unfold cf_get_dns_records
      rw [he]
      rfl
    · unfold cf_create_dns_record
      rw [hrn, he]
      rfl
    · unfold cf_create_caa_record
      rw [hcn, he]
      rfl
  · intro domains lr postR postC name rt record caa hz hrn hcn
    have hcov : cacheCovers ⟨none, none⟩ name = false := rfl
    have he : ln_ensure_zone_id domains ⟨none, none⟩ name =
        (none, ⟨none, (⟨none, none⟩ : ZoneCache).zone_domain⟩, true) := by
      unfold ln_ensure_zone_id
      rw [hcov, hz]
      simp
    refine ⟨?_, ?_, ?_⟩
    · unfold ln_get_dns_records
      rw [he]
      rfl
    · unfold ln_create_dns_record
      rw [hrn, he]
      rfl
    · unfold ln_create_caa_record
      rw [hcn, he]
      rfl
  · intro getHosts setHosts name rt record caa hz hrn
    refine ⟨?_, ?_, rfl⟩
    · unfold nc_get_dns_records
      rw [hz]
    · unfold nc_create_dns_record
      rw [hrn, hz]

/-- Witness for C5's amended theorem at concrete inputs: the example zone
listing contains no zone matching `other.net`, and a dotless name defeats
the Namecheap domain split. -/
theorem c5_resolution_failure_witness :
    ((cf_get_dns_records cxZonePages (fun _ _ _ => none) ⟨none, none⟩ "other.net"
        none).1 = [] ∧
      (cf_create_dns_record cxZonePages (fun _ _ => true) ⟨none, none⟩
        ⟨none, "other.net", RecordType.A, "1.2.3.4", 60, false, none, none⟩).1 = false ∧
      (cf_create_caa_record cxZonePages (fun _ _ => true) ⟨none, none⟩
        ⟨"other.net", 0, "issue", "letsencrypt.org", 60⟩).1 = false) ∧
    ((ln_get_dns_records cxLinodeDomains (fun _ _ _ => none) ⟨none, none⟩ "other.net"
        none).1 = [] ∧
      (ln_create_dns_record cxLinodeDomains (fun _ _ => true) ⟨none, none⟩
        ⟨none, "other.net", RecordType.A, "1.2.3.4", 60, false, none, none⟩).1 = false ∧
      (ln_create_caa_record cxLinodeDomains (fun _ _ => true) ⟨none, none⟩
        ⟨"other.net", 0, "issue", "letsencrypt.org", 60⟩).1 = false) ∧
    (nc_get_dns_records (fun _ _ => none) "localhost" none = [] ∧
      nc_create_dns_record (fun _ _ _ => true)
        ⟨none, "localhost", RecordType.A, "1.2.3.4", 60, false, none, none⟩ = false ∧
      (nc_create_caa_record
        ⟨"localhost", 0, "issue", "letsencrypt.org", 60⟩).1 = true) :=
  ⟨c5_resolution_failure.1 cxZonePages (fun _ _ _ => none) (fun _ _ => true)
      (fun _ _ => true) "other.net" none
      ⟨none, "other.net", RecordType.A, "1.2.3.4", 60, false, none, none⟩
      ⟨"other.net", 0, "issue", "letsencrypt.org", 60⟩ (by decide) rfl rfl,
    c5_resolution_failure.2.1 cxLinodeDomains (fun _ _ _ => none) (fun _ _ => true)
      (fun _ _ => true) "other.net" none
      ⟨none, "other.net", RecordType.A, "1.2.3.4", 60, false, none, none⟩
      ⟨"other.net", 0, "issue", "letsencrypt.org", 60⟩ (by decide) rfl rfl,
    c5_resolution_failure.2.2 (fun _ _ => none) (fun _ _ _ => true) "localhost" none
      ⟨none, "localhost", RecordType.A, "1.2.3.4", 60, false, none, none⟩
      ⟨"localhost", 0, "issue", "letsencrypt.org", 60⟩ rfl rfl⟩

/-! ## Claim C9 -/

/-- C9, counterexample: with no detection variable, no selector and no
`DNS_PROVIDER` override, `create_provider` fails with the
"could not detect" error — a message that does not name any of the
supported providers (the provider-naming message accompanies the
unsupported-selector error instead). -/
theorem c9_counterexample :
    create_provider envEmpty none = Except.error noDetectMsg ∧
    strContains noDetectMsg "cloudflare" = false ∧
    strContains noDetectMsg "linode" = false ∧
    strContains noDetectMsg "namecheap" = false := by
  refine ⟨rfl, ?_, ?_, ?_⟩ <;> decide

/-- C9 (amended): `create_provider` accepts an explicit selector
case-insensitively against the table `{cloudflare, linode, namecheap}`,
rejecting anything else with the error naming all supported providers;
absent a (truthy) selector it uses a non-empty `DNS_PROVIDER` environment
variable, validated the same way; otherwise it returns the first provider
in table order whose detection variable is present; and when nothing is
detected it fails with the "could not detect" error, which instructs
setting `DNS_PROVIDER` but does not name the providers. -/
theorem c9_create_provider :
    (∀ (env : String → Option String) (sel : String),
      ¬ sel = "" →
      create_provider env (some sel) =
        (if PROVIDERS.any (fun pr => decide (pr.1 = pyLower sel)) then
          Except.ok (pyLower sel)
        else Except.error (unsupportedMsg (pyLower sel)))) ∧
    (∀ (env : String → Option String) (v : String),
      env "DNS_PROVIDER" = some v → ¬ v = "" →
      create_provider env none =
        (if PROVIDERS.any (fun pr => decide (pr.1 = pyLower v)) then
          Except.ok (pyLower v)
        else Except.error (unsupportedMsg (pyLower v)))) ∧
    (∀ (env : String → Option String),
      env "DNS_PROVIDER" = none →
      detect_provider_type env =
        (if suitable env "CLOUDFLARE_API_TOKEN" then Except.ok "cloudflare"
        else if suitable env "LINODE_API_TOKEN" then Except.ok "linode"
        else if suitable env "NAMECHEAP_API_KEY" then Except.ok "namecheap"
        else Except.error noDetectMsg)) ∧
    (∀ (env : String → Option String),
      env "DNS_PROVIDER" = none →
      (∀ pr ∈ PROVIDERS, env pr.2 = none) →
      create_provider env none = Except.error noDetectMsg) ∧
    (strContains noDetectMsg "cloudflare" = false ∧
      strContains noDetectMsg "linode" = false ∧
      strContains noDetectMsg "namecheap" = false ∧
      strContains (unsupportedMsg "foo") "cloudflare" = true ∧
      strContains (unsupportedMsg "foo") "linode" = true ∧
      strContains (unsupportedMsg "foo") "namecheap" = true) := by
  refine ⟨?_, ?_, ?_, ?_, by refine ⟨?_, ?_, ?_, ?_, ?_, ?_⟩ <;> decide⟩
  · intro env sel hne
    unfold create_provider
    dsimp only
    rw [if_neg hne]
  · intro env v hv hne
    unfold create_provider detect_provider_type
    dsimp only
    rw [hv]
    dsimp only
    rw [if_neg hne]
  · intro env hnone
    unfold detect_provider_type
    rw [hnone]
    dsimp only
    simp only [detectScan, PROVIDERS]
    by_cases h1 : suitable env "CLOUDFLARE_API_TOKEN" = true <;>
      by_cases h2 : suitable env "LINODE_API_TOKEN" = true <;>
        by_cases h3 : suitable env "NAMECHEAP_API_KEY" = true <;>
          simp [h1, h2, h3]
  · intro env hnone hdet
    have h1 : env "CLOUDFLARE_API_TOKEN" = none :=
      hdet ("cloudflare", "CLOUDFLARE_API_TOKEN") (by simp [PROVIDERS])
    have h2 : env "LINODE_API_TOKEN" = none :=
      hdet ("linode", "LINODE_API_TOKEN") (by simp [PROVIDERS])
    have h3 : env "NAMECHEAP_API_KEY" = none :=
      hdet ("namecheap", "NAMECHEAP_API_KEY") (by simp [PROVIDERS])
    unfold create_provider detect_provider_type
    rw [hnone]
    simp [detectScan, PROVIDERS, suitable, h1, h2, h3]

/-- Witness for C9's amended theorem: a mixed-case explicit selector is
accepted; with only the Linode token present, detection picks `linode`. -/
theorem c9_create_provider_witness :
    create_provider envEmpty (some "CloudFlare") =
      (if PROVIDERS.any (fun pr => decide (pr.1 = pyLower "CloudFlare")) then
        Except.ok (pyLower "CloudFlare")
      else Except.error (unsupportedMsg (pyLower "CloudFlare"))) ∧
    detect_provider_type envLinodeOnly =
      (if suitable envLinodeOnly "CLOUDFLARE_API_TOKEN" then Except.ok "cloudflare"
      else if suitable envLinodeOnly "LINODE_API_TOKEN" then Except.ok "linode"
      else if suitable envLinodeOnly "NAMECHEAP_API_KEY" then Except.ok "namecheap"
      else Except.error noDetectMsg) ∧
    create_provider envEmpty none = Except.error noDetectMsg :=
  ⟨c9_create_provider.1 envEmpty "CloudFlare" (by decide),
    c9_create_provider.2.2.1 envLinodeOnly rfl,
    c9_create_provider.2.2.2.1 envEmpty rfl (fun pr _ => rfl)⟩

/-! ## Zone-scan lemmas (Cloudflare) -/

theorem pyEndsWithDot_length {d n : String} (h : pyEndsWithDot d n = true) :
    n.length < d.length := by
  unfold pyEndsWithDot at h
  have hs : ("." ++ n).data <:+ d.data := List.isSuffixOf_iff_suffix.mp h
  have hle : ("." ++ n).data.length ≤ d.data.length := hs.length_le
  rw [String.data_append] at hle
  simp only [List.length_append] at hle
  have : 1 + n.data.length ≤ d.data.length := hle
  have hn : n.length = n.data.length := rfl
  have hd : d.length = d.data.length := rfl
  omega

theorem scanZones_inl (domain : String) (zs : List Zone) :
    ∀ (len : Nat) (zid zn : Option String) (i n : String),
      scanZones domain zs (len, zid, zn) = Sum.inl (i, n) →
      n = domain ∧ ∃ z ∈ zs, z.id = i ∧ z.name = n := by
  induction zs with
  | nil => intro len zid zn i n h; simp [scanZones] at h
  | cons z rest ih =>
    intro len zid zn i n h
    by_cases h1 : domain = z.name
    · rw [scanZones, if_pos h1] at h
      injection h with h'
      injection h' with hi hn
      exact ⟨(hn ▸ h1 : domain = n).symm, z, List.mem_cons_self z rest, hi, hn⟩
    · by_cases h2 : (pyEndsWithDot domain z.name ∧ z.name.length > len)
      · rw [scanZones, if_neg h1, if_pos h2] at h
        rcases ih _ _ _ _ _ h with ⟨hd, z', hz', hzi, hzn⟩
        exact ⟨hd, z', List.mem_cons_of_mem z hz', hzi, hzn⟩
      · rw [scanZones, if_neg h1, if_neg h2] at h
        rcases ih _ _ _ _ _ h with ⟨hd, z', hz', hzi, hzn⟩
        exact ⟨hd, z', List.mem_cons_of_mem z hz', hzi, hzn⟩

theorem scanZones_inr (domain : String) (zs : List Zone) :
    ∀ (len : Nat) (zid zn : Option String) (len' : Nat) (zid' zn' : Option String),
      scanZones domain zs (len, zid, zn) = Sum.inr (len', zid', zn') →
      (∀ z ∈ zs, ¬ domain = z.name) ∧
      (∀ z ∈ zs, pyEndsWithDot domain z.name = true → z.name.length ≤ len') ∧
      len ≤ len' ∧
      ((len' = len ∧ zid' = zid ∧ zn' = zn) ∨
        (∃ z ∈ zs, pyEndsWithDot domain z.name = true ∧ zid' = some z.id ∧
          zn' = some z.name ∧ len' = z.name.length)) := by
  induction zs with
  | nil =>
    intro len zid zn len' zid' zn' h
    rw [scanZones] at h
    injection h with h'
    injection h' with hl h''
    injection h'' with hzi hzn
    exact ⟨by simp, by simp, le_of_eq hl, Or.inl ⟨hl.symm, hzi.symm, hzn.symm⟩⟩
  | cons z rest ih =>
    intro len zid zn len' zid' zn' h
    by_cases h1 : domain = z.name
    · rw [scanZones, if_pos h1] at h
      cases h
    · by_cases h2 : (pyEndsWithDot domain z.name ∧ z.name.length > len)
      · rw [scanZones, if_neg h1, if_pos h2] at h
        rcases ih _ _ _ _ _ _ h with ⟨ha, hb, hc, hd⟩
        refine ⟨?_, ?_, ?_, ?_⟩
        · intro q hq
          rcases List.mem_cons.mp hq with rfl | hq'
          · exact h1
          · exact ha q hq'
        · intro q hq hsuf
          rcases List.mem_cons.mp hq with rfl | hq'
          · exact le_trans (le_of_eq rfl) hc
          · exact hb q hq' hsuf
        · exact le_trans (le_of_lt h2.2) hc
        · rcases hd with ⟨hdl, hdzi, hdzn⟩ | ⟨z', hz', hsuf, hzi, hzn, hlen⟩
          · exact Or.inr ⟨z, List.mem_cons_self z rest, h2.1, hdzi, hdzn, hdl⟩
          · exact Or.inr ⟨z', List.mem_cons_of_mem z hz', hsuf, hzi, hzn, hlen⟩
      · rw [scanZones, if_neg h1, if_neg h2] at h
        rcases ih _ _ _ _ _ _ h with ⟨ha, hb, hc, hd⟩
        refine ⟨?_, ?_, hc, ?_⟩
        · intro q hq
          rcases List.mem_cons.mp hq with rfl | hq'
          · exact h1
          · exact ha q hq'
        · intro q hq hsuf
          rcases List.mem_cons.mp hq with rfl | hq'
          · have : ¬ q.name.length > len := fun hgt => h2 ⟨hsuf, hgt⟩
            omega
          · exact hb q hq' hsuf
        · rcases hd with ⟨hdl, hdzi, hdzn⟩ | ⟨z', hz', hsuf, hzi, hzn, hlen⟩
          · exact Or.inl ⟨hdl, hdzi, hdzn⟩
          · exact Or.inr ⟨z', List.mem_cons_of_mem z hz', hsuf, hzi, hzn, hlen⟩

theorem scanZones_append (domain : String) (xs ys : List Zone) :
    ∀ acc, scanZones domain (xs ++ ys) acc =
      (match scanZones domain xs acc with
        | Sum.inl r => Sum.inl r
        | Sum.inr acc' => scanZones domain ys acc') := by
  induction xs with
  | nil => intro acc; rcases acc with ⟨len, zid, zn⟩; simp [scanZones]
  | cons z rest ih =>
    intro acc
    rcases acc with ⟨len, zid, zn⟩
    by_cases h1 : domain = z.name
    · simp only [List.cons_append, scanZones, if_pos h1]
    · by_cases h2 : (pyEndsWithDot domain z.name ∧ z.name.length > len)
      · simp only [List.cons_append, scanZones, if_neg h1, if_pos h2]
        exact ih _
      · simp only [List.cons_append, scanZones, if_neg h1, if_neg h2]
        exact ih _

theorem scanPages_eq (domain : String) (pages : List (List Zone)) :
    ∀ acc, scanPages domain pages acc = scanZones domain pages.flatten acc := by
  induction pages with
  | nil => intro acc; rcases acc with ⟨len, zid, zn⟩; simp [scanPages, scanZones]
  | cons pg rest ih =>
    intro acc
    rw [List.flatten_cons, scanZones_append, scanPages]
    cases hpg : scanZones domain pg acc with
    | inl r => rfl
    | inr acc' => exact ih acc'

theorem length_zero_eq_empty {s : String} (h : s.length = 0) : s = "" := by
  cases s with
  | mk data =>
    cases data with
    | nil => rfl
    | cons c cs => simp [String.length] at h

theorem get_zone_info_sound (pages : List (List Zone)) (domain zid zn : String)
    (h : get_zone_info pages domain = some (zid, zn)) :
    (∃ z ∈ pages.flatten, z.id = zid ∧ z.name = zn ∧ zoneMatches domain z = true) ∧
    (∀ z ∈ pages.flatten, zoneMatches domain z = true → z.name.length ≤ zn.length) := by
  unfold get_zone_info at h
  cases pages with
  | nil => cases h
  | cons fp rest =>
    dsimp only at h
    by_cases hemp : fp.isEmpty = true
    · rw [if_pos hemp] at h; cases h
    · rw [if_neg hemp] at h
      cases hscan : scanPages domain (fp :: rest) (0, none, none) with
      | inl r =>
        rcases r with ⟨i, n⟩
        rw [hscan] at h
        injection h with h'
        injection h' with hi hn
        rw [scanPages_eq] at hscan
        rcases scanZones_inl domain (fp :: rest).flatten _ _ _ _ _ hscan with
          ⟨hdom, z, hz, hzi, hzn⟩
        constructor
        · refine ⟨z, hz, hzi.trans hi, hzn.trans hn, ?_⟩
          rw [zoneMatches]
          have : domain = z.name := by rw [hzn, hdom]
          simp [this]
        · intro z' hz' hm
          rw [zoneMatches, Bool.or_eq_true] at hm
          have hznlen : zn.length = domain.length := by
            rw [← hn, hdom]
          rcases hm with hm | hm
          · have : domain = z'.name := by simpa using hm
            rw [← this, hznlen]
          · have := pyEndsWithDot_length hm
            omega
      | inr acc' =>
        rcases acc' with ⟨len', zid', zn'⟩
        rw [hscan] at h
        rw [scanPages_eq] at hscan
        rcases scanZones_inr domain (fp :: rest).flatten _ _ _ _ _ _ hscan with
          ⟨ha, hb, _, hd⟩
        rcases hd with ⟨-, hdzi, hdzn⟩ | ⟨z, hz, hsuf, hdzi, hdzn, hdlen⟩
        · rw [hdzi, hdzn] at h
          dsimp only at h
          cases h
        · rw [hdzi, hdzn] at h
          dsimp only at h
          by_cases hz0 : z.id = "" ∨ z.name = ""
          · rw [if_pos hz0] at h; cases h
          · rw [if_neg hz0] at h
            injection h with h'
            injection h' with hi hn
            constructor
            · refine ⟨z, hz, hi, hn, ?_⟩
              rw [zoneMatches, hsuf]
              simp
            · intro z' hz' hm
              rw [zoneMatches, Bool.or_eq_true] at hm
              rcases hm with hm | hm
              · exact absurd (by simpa using hm) (ha z' hz')
              · have := hb z' hz' hm
                rw [← hn]
                omega

theorem get_zone_info_none (pages : List (List Zone)) (domain : String)
    (h : ∀ z ∈ pages.flatten, zoneMatches domain z = false) :
    get_zone_info pages domain = none := by
  unfold get_zone_info
  cases pages with
  | nil => rfl
  | cons fp rest =>
    dsimp only
    by_cases hemp : fp.isEmpty = true
    · rw [if_pos hemp]
    · rw [if_neg hemp]
      cases hscan : scanPages domain (fp :: rest) (0, none, none) with
      | inl r =>
        rcases r with ⟨i, n⟩
        rw [scanPages_eq] at hscan
        rcases scanZones_inl domain (fp :: rest).flatten _ _ _ _ _ hscan with
          ⟨hdom, z, hz, -, hzn⟩
        have : zoneMatches domain z = true := by
          rw [zoneMatches]
          have : domain = z.name := by rw [hzn, hdom]
          simp [this]
        rw [h z hz] at this
        cases this
      | inr acc' =>
        rcases acc' with ⟨len', zid', zn'⟩
        rw [scanPages_eq] at hscan
        rcases scanZones_inr domain (fp :: rest).flatten _ _ _ _ _ _ hscan with
          ⟨-, -, -, hd⟩
        rcases hd with ⟨-, hdzi, hdzn⟩ | ⟨z, hz, hsuf, hdzi, hdzn, -⟩
        · rw [hdzi, hdzn]
        · have : zoneMatches domain z = true := by
            rw [zoneMatches, hsuf]; simp
          rw [h z hz] at this
          cases this

theorem get_zone_info_total (fp : List Zone) (rest : List (List Zone))
    (domain : String) (hfp : fp.isEmpty = false)
    (hok : ∀ z ∈ (fp :: rest).flatten, ¬ z.id = "" ∧ ¬ z.name = "")
    (hmatch : ∃ z ∈ (fp :: rest).flatten, zoneMatches domain z = true) :
    ∃ zid zn, get_zone_info (fp :: rest) domain = some (zid, zn) := by
  unfold get_zone_info
  dsimp only
  rw [hfp]
  simp only [Bool.false_eq_true, if_false]
  cases hscan : scanPages domain (fp :: rest) (0, none, none) with
  | inl r =>
    rcases r with ⟨i, n⟩
    exact ⟨i, n, rfl⟩
  | inr acc' =>
    rcases acc' with ⟨len', zid', zn'⟩
    rw [scanPages_eq] at hscan
    rcases scanZones_inr domain (fp :: rest).flatten _ _ _ _ _ _ hscan with
      ⟨ha, hb, -, hd⟩
    rcases hmatch with ⟨z, hz, hm⟩
    rw [zoneMatches, Bool.or_eq_true] at hm
    have hsufz : pyEndsWithDot domain z.name = true := by
      rcases hm with hm | hm
      · exact absurd (by simpa using hm) (ha z hz)
      · exact hm
    rcases hd with ⟨hdl, -, -⟩ | ⟨z', hz', -, hdzi, hdzn, -⟩
    · have hle := hb z hz hsufz
      rw [hdl] at hle
      have : z.name = "" := length_zero_eq_empty (Nat.le_zero.mp hle)
      exact absurd this (hok z hz).2
    · rw [hdzi, hdzn]
      dsimp only
      have hne : ¬ (z'.id = "" ∨ z'.name = "") := by
        rcases hok z' hz' with ⟨h1, h2⟩
        rintro (hx | hx)
        · exact h1 hx
        · exact h2 hx
      rw [if_neg hne]
      exact ⟨z'.id, z'.name, rfl⟩

/-! ## Zone-scan lemmas (Linode) -/

theorem scanDomains_inl (domain : String) (ds : List LinodeDomain) :
    ∀ (len : Nat) (best : Option Nat) (i : String),
      scanDomains domain ds (len, best) = Sum.inl i →
      ∃ d ∈ ds, toString d.id = i ∧ domain = d.domain := by
  induction ds with
  | nil => intro len best i h; simp [scanDomains] at h
  | cons d rest ih =>
    intro len best i h
    by_cases h1 : domain = d.domain
    · rw [scanDomains, if_pos h1] at h
      injection h with h'
      exact ⟨d, List.mem_cons_self d rest, h', h1⟩
    · by_cases h2 : (pyEndsWithDot domain d.domain ∧ d.domain.length > len)
      · rw [scanDomains, if_neg h1, if_pos h2] at h
        rcases ih _ _ _ h with ⟨d', hd', hdi, hdd⟩
        exact ⟨d', List.mem_cons_of_mem d hd', hdi, hdd⟩
      · rw [scanDomains, if_neg h1, if_neg h2] at h
        rcases ih _ _ _ h with ⟨d', hd', hdi, hdd⟩
        exact ⟨d', List.mem_cons_of_mem d hd', hdi, hdd⟩

theorem scanDomains_inr (domain : String) (ds : List LinodeDomain) :
    ∀ (len : Nat) (best : Option Nat) (len' : Nat) (best' : Option Nat),
      scanDomains domain ds (len, best) = Sum.inr (len', best') →
      (∀ d ∈ ds, ¬ domain = d.domain) ∧
      (∀ d ∈ ds, pyEndsWithDot domain d.domain = true → d.domain.length ≤ len') ∧
      len ≤ len' ∧
      ((len' = len ∧ best' = best) ∨
        (∃ d ∈ ds, pyEndsWithDot domain d.domain = true ∧ best' = some d.id ∧
          len' = d.domain.length)) := by
  induction ds with
  | nil =>
    intro len best len' best' h
    rw [scanDomains] at h
    injection h with h'
    injection h' with hl hb
    exact ⟨by simp, by simp, le_of_eq hl, Or.inl ⟨hl.symm, hb.symm⟩⟩
  | cons d rest ih =>
    intro len best len' best' h
    by_cases h1 : domain = d.domain
    · rw [scanDomains, if_pos h1] at h
      cases h
    · by_cases h2 : (pyEndsWithDot domain d.domain ∧ d.domain.length > len)
      · rw [scanDomains, if_neg h1, if_pos h2] at h
        rcases ih _ _ _ _ h with ⟨ha, hb, hc, hd⟩
        refine ⟨?_, ?_, ?_, ?_⟩
        · intro q hq
          rcases List.mem_cons.mp hq with rfl | hq'
          · exact h1
          · exact ha q hq'
        · intro q hq hsuf
          rcases List.mem_cons.mp hq with rfl | hq'
          · exact hc
          · exact hb q hq' hsuf
        · exact le_trans (le_of_lt h2.2) hc
        · rcases hd with ⟨hdl, hdb⟩ | ⟨d', hd', hsuf, hdb, hdl⟩
          · exact Or.inr ⟨d, List.mem_cons_self d rest, h2.1, hdb, hdl⟩
          · exact Or.inr ⟨d', List.mem_cons_of_mem d hd', hsuf, hdb, hdl⟩
      · rw [scanDomains, if_neg h1, if_neg h2] at h
        rcases ih _ _ _ _ h with ⟨ha, hb, hc, hd⟩
        refine ⟨?_, ?_, hc, ?_⟩
        · intro q hq
          rcases List.mem_cons.mp hq with rfl | hq'
          · exact h1
          · exact ha q hq'
        · intro q hq hsuf
          rcases List.mem_cons.mp hq with rfl | hq'
          · have : ¬ q.domain.length > len := fun hgt => h2 ⟨hsuf, hgt⟩
            omega
          · exact hb q hq' hsuf
        · rcases hd with ⟨hdl, hdb⟩ | ⟨d', hd', hsuf, hdb, hdl⟩
          · exact Or.inl ⟨hdl, hdb⟩
          · exact Or.inr ⟨d', List.mem_cons_of_mem d hd', hsuf, hdb, hdl⟩

theorem ln_get_zone_id_sound (domains : List LinodeDomain) (domain zid : String)
    (h : ln_get_zone_id domains domain = some zid) :
    ∃ d ∈ domains, toString d.id = zid ∧ linodeMatches domain d = true ∧
      ∀ d' ∈ domains, linodeMatches domain d' = true →
        d'.domain.length ≤ d.domain.length := by
  unfold ln_get_zone_id at h
  cases hscan : scanDomains domain domains (0, none) with
  | inl i =>
    rw [hscan] at h
    injection h with h'
    rcases scanDomains_inl domain domains _ _ _ hscan with ⟨d, hd, hdi, hdd⟩
    refine ⟨d, hd, h' ▸ hdi, by simp [linodeMatches, hdd], ?_⟩
    intro d' hd' hm
    rw [linodeMatches, Bool.or_eq_true] at hm
    rcases hm with hm | hm
    · have : domain = d'.domain := by simpa using hm
      rw [← this, ← hdd]
    · have := pyEndsWithDot_length hm
      rw [← hdd]
      omega
  | inr acc' =>
    rcases acc' with ⟨len', best'⟩
    rw [hscan] at h
    rcases scanDomains_inr domain domains _ _ _ _ hscan with ⟨ha, hb, -, hd⟩
    rcases hd with ⟨-, hdb⟩ | ⟨d, hd, hsuf, hdb, hdl⟩
    · rw [hdb] at h; cases h
    · rw [hdb] at h
      dsimp only at h
      by_cases h0 : d.id = 0
      · rw [if_pos h0] at h; cases h
      · rw [if_neg h0] at h
        injection h with h'
        refine ⟨d, hd, h', by simp [linodeMatches, hsuf], ?_⟩
        intro d' hd' hm
        rw [linodeMatches, Bool.or_eq_true] at hm
        rcases hm with hm | hm
        · exact absurd (by simpa using hm) (ha d' hd')
        · have := hb d' hd' hm
          omega

theorem ln_get_zone_id_none (domains : List LinodeDomain) (domain : String)
    (h : ∀ d ∈ domains, linodeMatches domain d = false) :
    ln_get_zone_id domains domain = none := by
  unfold ln_get_zone_id
  cases hscan : scanDomains domain domains (0, none) with
  | inl i =>
    rcases scanDomains_inl domain domains _ _ _ hscan with ⟨d, hd, -, hdd⟩
    have : linodeMatches domain d = true := by simp [linodeMatches, hdd]
    rw [h d hd] at this
    cases this
  | inr acc' =>
    rcases acc' with ⟨len', best'⟩
    rcases scanDomains_inr domain domains _ _ _ _ hscan with ⟨-, -, -, hd⟩
    rcases hd with ⟨-, hdb⟩ | ⟨d, hd, hsuf, hdb, -⟩
    · rw [hdb]
    · have : linodeMatches domain d = true := by simp [linodeMatches, hsuf]
      rw [h d hd] at this
      cases this

theorem ln_get_zone_id_total (domains : List LinodeDomain) (domain : String)
    (hok : ∀ d ∈ domains, ¬ d.id = 0 ∧ ¬ d.domain = "")
    (hmatch : ∃ d ∈ domains, linodeMatches domain d = true) :
    ∃ zid, ln_get_zone_id domains domain = some zid := by
  unfold ln_get_zone_id
  cases hscan : scanDomains domain domains (0, none) with
  | inl i => exact ⟨i, rfl⟩
  | inr acc' =>
    rcases acc' with ⟨len', best'⟩
    rcases scanDomains_inr domain domains _ _ _ _ hscan with ⟨ha, hb, -, hd⟩
    rcases hmatch with ⟨d, hdm, hm⟩
    rw [linodeMatches, Bool.or_eq_true] at hm
    have hsufd : pyEndsWithDot domain d.domain = true := by
      rcases hm with hm | hm
      · exact absurd (by simpa using hm) (ha d hdm)
      · exact hm
    rcases hd with ⟨hdl, -⟩ | ⟨d', hd', -, hdb, -⟩
    · have hle := hb d hdm hsufd
      rw [hdl] at hle
      have : d.domain = "" := length_zero_eq_empty (Nat.le_zero.mp hle)
      exact absurd this (hok d hdm).2
    · rw [hdb]
      dsimp only
      rw [if_neg (hok d' hd').1]
      exact ⟨toString d'.id, rfl⟩

/-! ## Claim C2 -/

/-- C2: zone resolution (Cloudflare `_get_zone_info` across all pages, and
Linode `_get_zone_id`) returns only zones whose name equals the FQDN or is
a dot-suffix of it, and among all matching candidates one of maximal zone
name length; if no zone matches, it returns nothing, and when a match
exists (with well-formed ids/names and a non-empty first page) it
succeeds.  In particular, with zones `{example.com, sub.example.com}`,
resolving `a.sub.example.com` selects `sub.example.com`. -/
theorem c2_zone_resolution :
    (∀ (pages : List (List Zone)) (domain zid zn : String),
      get_zone_info pages domain = some (zid, zn) →
      (∃ z ∈ pages.flatten, z.id = zid ∧ z.name = zn ∧ zoneMatches domain z = true) ∧
      (∀ z ∈ pages.flatten, zoneMatches domain z = true →
        z.name.length ≤ zn.length)) ∧
    (∀ (pages : List (List Zone)) (domain : String),
      (∀ z ∈ pages.flatten, zoneMatches domain z = false) →
      get_zone_info pages domain = none) ∧
    (∀ (fp : List Zone) (rest : List (List Zone)) (domain : String),
      fp.isEmpty = false →
      (∀ z ∈ (fp :: rest).flatten, ¬ z.id = "" ∧ ¬ z.name = "") →
      (∃ z ∈ (fp :: rest).flatten, zoneMatches domain z = true) →
      ∃ zid zn, get_zone_info (fp :: rest) domain = some (zid, zn)) ∧
    get_zone_info cxZonePages "a.sub.example.com" = some ("z-sub", "sub.example.com") ∧
    (∀ (domains : List LinodeDomain) (domain zid : String),
      ln_get_zone_id domains domain = some zid →
      ∃ d ∈ domains, toString d.id = zid ∧ linodeMatches domain d = true ∧
        ∀ d' ∈ domains, linodeMatches domain d' = true →
          d'.domain.length ≤ d.domain.length) ∧
    (∀ (domains : List LinodeDomain) (domain : String),
      (∀ d ∈ domains, linodeMatches domain d = false) →
      ln_get_zone_id domains domain = none) ∧
    (∀ (domains : List LinodeDomain) (domain : String),
      (∀ d ∈ domains, ¬ d.id = 0 ∧ ¬ d.domain = "") →
      (∃ d ∈ domains, linodeMatches domain d = true) →
      ∃ zid, ln_get_zone_id domains domain = some zid) ∧
    ln_get_zone_id cxLinodeDomains "a.sub.example.com" = some "22" := by
  refine ⟨get_zone_info_sound, get_zone_info_none, get_zone_info_total,
    by decide, ln_get_zone_id_sound, ln_get_zone_id_none, ln_get_zone_id_total, ?_⟩
  decide

/-- Witness for C2: resolving `a.sub.example.com` against the example
listing indeed returns a matching zone of maximal name length, and a
non-matching FQDN resolves to nothing. -/
theorem c2_zone_resolution_witness :
    ((∃ z ∈ cxZonePages.flatten, z.id = "z-sub" ∧ z.name = "sub.example.com" ∧
        zoneMatches "a.sub.example.com" z = true) ∧
      (∀ z ∈ cxZonePages.flatten, zoneMatches "a.sub.example.com" z = true →
        z.name.length ≤ ("sub.example.com").length)) ∧
    get_zone_info cxZonePages "other.net" = none ∧
    ln_get_zone_id cxLinodeDomains "other.net" = none :=
  ⟨c2_zone_resolution.1 cxZonePages "a.sub.example.com" "z-sub" "sub.example.com"
      (by decide),
    c2_zone_resolution.2.1 cxZonePages "other.net" (by decide),
    c2_zone_resolution.2.2.2.2.2.1 cxLinodeDomains "other.net" (by decide)⟩

/-! ## Claim C4 -/

/-- C4: the single-entry zone-handle cache invariant of `_ensure_zone_id`
(both adapters).  When the cache holds a truthy pair covering the name
(equal to the cached zone name or a dot-subdomain of it), the cached id is
returned, the cache is untouched and no zone listing happens; when it does
not cover the name, a zone listing is performed, and a successful
re-resolution overwrites the cache with the new pair. -/
theorem c4_zone_cache :
    (∀ (pages : List (List Zone)) (c : ZoneCache) (domain : String),
      cacheCovers c domain = true →
      cf_ensure_zone_id pages c domain = (c.zone_id, c, false)) ∧
    (∀ (pages : List (List Zone)) (c : ZoneCache) (domain : String),
      cacheCovers c domain = false →
      (cf_ensure_zone_id pages c domain).2.2 = true ∧
      (∀ zid zn : String, get_zone_info pages domain = some (zid, zn) →
        cf_ensure_zone_id pages c domain = (some zid, ⟨some zid, some zn⟩, true))) ∧
    (∀ (domains : List LinodeDomain) (c : ZoneCache) (domain : String),
      cacheCovers c domain = true →
      ln_ensure_zone_id domains c domain = (c.zone_id, c, false)) ∧
    (∀ (domains : List LinodeDomain) (c : ZoneCache) (domain : String),
      cacheCovers c domain = false →
      (ln_ensure_zone_id domains c domain).2.2 = true ∧
      (∀ (zid : String) (d : LinodeDomain),
        ln_get_zone_id domains domain = some zid →
        domains.find? (fun d' => decide (toString d'.id = zid)) = some d →
        ln_ensure_zone_id domains c domain =
          (some zid, ⟨some zid, some d.domain⟩, true))) := by
  refine ⟨?_, ?_, ?_, ?_⟩
  · intro pages c domain hcov
    unfold cf_ensure_zone_id
    rw [if_pos hcov]
  · intro pages c domain hcov
    constructor
    · unfold cf_ensure_zone_id
      rw [hcov]
      simp only [Bool.false_eq_true, if_false]
      cases hz : get_zone_info pages domain with
      | none => rfl
      | some r => rcases r with ⟨zid, zn⟩; rfl
    · intro zid zn hz
      unfold cf_ensure_zone_id
      rw [hcov]
      simp only [Bool.false_eq_true, if_false]
      rw [hz]
  · intro domains c domain hcov
    unfold ln_ensure_zone_id
    rw [if_pos hcov]
  · intro domains c domain hcov
    constructor
    · unfold ln_ensure_zone_id
      rw [hcov]
      simp only [Bool.false_eq_true, if_false]
      cases hz : ln_get_zone_id domains domain with
      | none => rfl
      | some zid =>
        dsimp only
        cases hf : domains.find? (fun d' => decide (toString d'.id = zid)) with
        | none => rfl
        | some d => rfl
    · intro zid d hz hf
      unfold ln_ensure_zone_id
      rw [hcov]
      simp only [Bool.false_eq_true, if_false]
      rw [hz]
      dsimp only
      rw [hf]

/-- Witness for C4 at concrete inputs: a covering cache short-circuits the
listing for a subdomain of the cached zone; an empty cache re-resolves and
stores the new pair. -/
theorem c4_zone_cache_witness :
    cf_ensure_zone_id cxZonePages cxCache "a.sub.example.com" =
      (cxCache.zone_id, cxCache, false) ∧
    cf_ensure_zone_id cxZonePages ⟨none, none⟩ "a.sub.example.com" =
      (some "z-sub", ⟨some "z-sub", some "sub.example.com"⟩, true) ∧
    ln_ensure_zone_id cxLinodeDomains cxCache "a.sub.example.com" =
      (cxCache.zone_id, cxCache, false) ∧
    ln_ensure_zone_id cxLinodeDomains ⟨none, none⟩ "a.sub.example.com" =
      (some "22", ⟨some "22", some "sub.example.com"⟩, true) :=
  ⟨c4_zone_cache.1 cxZonePages cxCache "a.sub.example.com" (by decide),
    (c4_zone_cache.2.1 cxZonePages ⟨none, none⟩ "a.sub.example.com" (by decide)).2
      "z-sub" "sub.example.com" (by decide),
    c4_zone_cache.2.2.1 cxLinodeDomains cxCache "a.sub.example.com" (by decide),
    (c4_zone_cache.2.2.2 cxLinodeDomains ⟨none, none⟩ "a.sub.example.com"
      (by decide)).2 "22" ⟨22, "sub.example.com"⟩ (by decide) (by decide)⟩

/-! ## Alias lemmas (Linode) -/

theorem deleteRecordsLoop_eq {σ : Type} (p : Provider σ) (name : String)
    (recs : List DNSRecord) :
    ∀ (s : σ) (tr : List PCall),
      deleteRecordsLoop p name recs s tr =
        (deleteFold p name recs s, tr ++ delCalls name recs) := by
  induction recs with
  | nil => intro s tr; simp [deleteRecordsLoop, deleteFold, delCalls]
  | cons r rest ih =>
    intro s tr
    by_cases hid : idTruthy r.id = true
    · simp only [deleteRecordsLoop, hid, if_pos]
      rw [ih]
      simp [deleteFold, hid, delCalls_cons]
    · simp only [deleteRecordsLoop, hid]
      simp only [Bool.false_eq_true, if_false]
      rw [ih]
      simp [deleteFold, hid, delCalls_cons]

theorem exists_first_match (ip : String) (recs : List DNSRecord)
    (hex : ∃ r ∈ recs, r.content = ip) :
    ∃ r₀ suffix, recs.dropWhile (fun r => !(r.content == ip)) = r₀ :: suffix ∧
      r₀.content = ip := by
  induction recs with
  | nil => simp at hex
  | cons r rest ih =>
    by_cases hr : r.content = ip
    · refine ⟨r, rest, ?_, hr⟩
      rw [List.dropWhile_cons]
      simp [hr]
    · have hex' : ∃ q ∈ rest, q.content = ip := by
        rcases hex with ⟨q, hq, hc⟩
        rcases List.mem_cons.mp hq with rfl | hq'
        · exact absurd hc hr
        · exact ⟨q, hq', hc⟩
      rcases ih hex' with ⟨r₀, suffix, hdrop, hr0⟩
      refine ⟨r₀, suffix, ?_, hr0⟩
      rw [List.dropWhile_cons]
      simp [hr, hdrop]

theorem simMatches_iff (name : String) (rt : RecordType) (r : DNSRecord) :
    simMatches name (some rt) r = true ↔ (r.name = name ∧ r.type = rt) := by
  simp [simMatches]

theorem filter_filter_nil {l : List DNSRecord} {p q : DNSRecord → Bool}
    (h : l.filter q = []) : (l.filter p).filter q = [] := by
  rw [List.filter_eq_nil_iff] at h ⊢
  intro a ha
  exact h a (List.mem_of_mem_filter ha)

theorem sim_set_a_record_ensures (t₂ : SimState) (name ip : String) (ttl : Nat)
    (hcn : simCnameRecordsAt t₂ name = [])
    (_hid : ∀ r ∈ t₂.records, idTruthy r.id = true)
    (hnd : (t₂.records.map (fun r => r.id)).Nodup) :
    (set_a_record simProvider t₂ name ip ttl false).1 = true ∧
    simCnameRecordsAt (set_a_record simProvider t₂ name ip ttl false).2.1 name = [] ∧
    ∃ r ∈ (set_a_record simProvider t₂ name ip ttl false).2.1.records,
      r.name = name ∧ r.type = RecordType.A ∧ r.content = ip := by
  have hcn' : t₂.records.filter (simMatches name (some RecordType.CNAME)) = [] := hcn
  by_cases hex : ∃ r ∈ simARecordsAt t₂ name, r.content = ip
  · -- idempotent early return: the matching record survives
    have hsm : set_a_record simProvider t₂ name ip ttl false =
        (true,
          deleteFold simProvider name
            ((simARecordsAt t₂ name).takeWhile (fun r => !(r.content == ip))) t₂,
          delCalls name
            ((simARecordsAt t₂ name).takeWhile (fun r => !(r.content == ip)))) := by
      unfold set_a_record
      rw [show (simProvider.get_dns_records t₂ name (some RecordType.A)) =
        ((simARecordsAt t₂ name), t₂) from rfl]
      dsimp only
      rw [setARecordGo_match simProvider name ip (simARecordsAt t₂ name) t₂ [] hex]
      simp
    rcases exists_first_match ip (simARecordsAt t₂ name) hex with
      ⟨r₀, suffix, hdrop, hr0c⟩
    have hsplit : (simARecordsAt t₂ name).takeWhile (fun r => !(r.content == ip)) ++
        r₀ :: suffix = simARecordsAt t₂ name := by
      rw [← hdrop]
      exact List.takeWhile_append_dropWhile _ _
    have hr0A : r₀ ∈ simARecordsAt t₂ name := by
      rw [← hsplit]
      exact List.mem_append_right _ (List.mem_cons_self r₀ suffix)
    have hr0rec : r₀ ∈ t₂.records := List.mem_of_mem_filter hr0A
    have hsurv :
        (!(idAmong ((simARecordsAt t₂ name).takeWhile (fun r => !(r.content == ip)))
          r₀)) = true := by
      rw [Bool.not_eq_true']
      rw [Bool.eq_false_iff]
      intro hmem
      rw [idAmong, List.any_eq_true] at hmem
      rcases hmem with ⟨rp, hrp, hbool⟩
      rw [Bool.and_eq_true] at hbool
      have hideq : r₀.id = rp.id := by simpa using hbool.2
      have hrpA : rp ∈ simARecordsAt t₂ name :=
        (List.takeWhile_sublist _).subset hrp
      have hrprec : rp ∈ t₂.records := List.mem_of_mem_filter hrpA
      have hrpc : rp.content ≠ ip := by
        have := List.mem_takeWhile_imp hrp
        simpa using this
      have : r₀ = rp := List.inj_on_of_nodup_map hnd hr0rec hrprec hideq
      rw [this] at hr0c
      exact hrpc hr0c
    rw [hsm]
    refine ⟨rfl, ?_, ?_⟩
    · rw [deleteFold_sim]
      exact filter_filter_nil hcn'
    · rw [deleteFold_sim]
      refine ⟨r₀, List.mem_filter.mpr ⟨hr0rec, hsurv⟩, ?_, ?_, hr0c⟩
      · exact ((simMatches_iff name RecordType.A r₀).mp
          (List.of_mem_filter hr0A)).1
      · exact ((simMatches_iff name RecordType.A r₀).mp
          (List.of_mem_filter hr0A)).2
  · have hnm : ∀ r ∈ simARecordsAt t₂ name, r.content ≠ ip := by
      intro r hr hc
      exact hex ⟨r, hr, hc⟩
    rw [sim_set_a_record_fresh t₂ name ip ttl false hnm]
    refine ⟨rfl, ?_, ?_⟩
    · rw [simCnameRecordsAt]
      dsimp only
      rw [List.filter_append]
      rw [filter_filter_nil hcn']
      simp [simMatches]
    · refine ⟨⟨some (toString t₂.nextId), name, RecordType.A, ip, ttl, false, none,
        none⟩, ?_, rfl, rfl, rfl⟩
      dsimp only
      exact List.mem_append_right _ (List.mem_cons_self _ _)

/-! ## Claim C6 -/

/-- C6: the Linode alias override resolves the target hostname to an IPv4
address and sets an A record carrying that address at the name (never a
CNAME); every pre-existing CNAME at the name is deleted in the same
operation; and when host resolution finds no address the call raises
(`Except.error`), rather than returning `false` as the zone-not-found
paths do. -/
theorem c6_linode_alias :
    (∀ (σ : Type) (p : Provider σ) (resolve : String → Option String) (s : σ)
        (name content : String) (ttl : Nat) (px : Bool),
      resolve content = none →
      set_alias_record p resolve s name content ttl px =
        Except.error ("could not resolve host: " ++ content)) ∧
    (∀ (resolve : String → Option String) (t : SimState)
        (name content ip : String) (ttl : Nat) (px : Bool),
      resolve content = some ip → ¬ ip = "" →
      (∀ r ∈ t.records, idTruthy r.id = true) →
      (t.records.map (fun r => r.id)).Nodup →
      ∃ (t' : SimState) (tr : List PCall),
        set_alias_record simProvider resolve t name content ttl px =
          Except.ok (true, t', tr) ∧
        simCnameRecordsAt t' name = [] ∧
        ∃ r ∈ t'.records, r.name = name ∧ r.type = RecordType.A ∧
          r.content = ip) := by
  constructor
  · intro σ p resolve s name content ttl px hres
    unfold set_alias_record
    rw [hres]
  · intro resolve t name content ip ttl px hres hip hidall hnd
    have h1 : set_alias_record simProvider resolve t name content ttl px =
        Except.ok ((set_a_record simProvider
            (deleteFold simProvider name (simCnameRecordsAt t name) t) name ip ttl
            false).1,
          (set_a_record simProvider
            (deleteFold simProvider name (simCnameRecordsAt t name) t) name ip ttl
            false).2.1,
          delCalls name (simCnameRecordsAt t name) ++
            (set_a_record simProvider
              (deleteFold simProvider name (simCnameRecordsAt t name) t) name ip ttl
              false).2.2) := by
      unfold set_alias_record
      rw [hres]
      dsimp only
      rw [if_neg hip]
      rw [show (simProvider.get_dns_records t name (some RecordType.CNAME)) =
        ((simCnameRecordsAt t name), t) from rfl]
      dsimp only
      rw [deleteRecordsLoop_eq]
      simp
    have ht2 : deleteFold simProvider name (simCnameRecordsAt t name) t =
        (⟨t.records.filter (fun q => !(idAmong (simCnameRecordsAt t name) q)),
          t.nextId⟩ : SimState) := deleteFold_sim name _ t
    have hid2 : ∀ r ∈ (deleteFold simProvider name (simCnameRecordsAt t name)
        t).records, idTruthy r.id = true := by
      rw [ht2]
      intro r hr
      exact hidall r (List.mem_of_mem_filter hr)
    have hnd2 : ((deleteFold simProvider name (simCnameRecordsAt t name)
        t).records.map (fun r => r.id)).Nodup := by
      rw [ht2]
      exact List.Nodup.sublist
        (List.Sublist.map (fun r => r.id) (List.filter_sublist t.records)) hnd
    have hcn2 : simCnameRecordsAt
        (deleteFold simProvider name (simCnameRecordsAt t name) t) name = [] := by
      rw [ht2]
      rw [simCnameRecordsAt]
      dsimp only
      rw [List.filter_eq_nil_iff]
      intro q hq
      rcases List.mem_filter.mp hq with ⟨hqt, hqkeep⟩
      intro hqm
      have hqcn : q ∈ simCnameRecordsAt t name := List.mem_filter.mpr ⟨hqt, hqm⟩
      have : idAmong (simCnameRecordsAt t name) q = true := by
        rw [idAmong, List.any_eq_true]
        exact ⟨q, hqcn, by simp [hidall q hqt]⟩
      simp [this] at hqkeep
    rcases sim_set_a_record_ensures
        (deleteFold simProvider name (simCnameRecordsAt t name) t) name ip ttl
        hcn2 hid2 hnd2 with ⟨hflag, hcne, hexa⟩
    refine ⟨(set_a_record simProvider
        (deleteFold simProvider name (simCnameRecordsAt t name) t) name ip ttl
        false).2.1,
      delCalls name (simCnameRecordsAt t name) ++
        (set_a_record simProvider
          (deleteFold simProvider name (simCnameRecordsAt t name) t) name ip ttl
          false).2.2, ?_, hcne, hexa⟩
    rw [h1, hflag]

/-- Witness for C6: resolving the example target against a state holding a
CNAME at the name produces an A record and removes the CNAME; an unknown
target raises. -/
theorem c6_linode_alias_witness :
    (∃ (t' : SimState) (tr : List PCall),
      set_alias_record simProvider resolveEx cxAliasState "www.example.com"
          "target.example.org" 60 false =
        Except.ok (true, t', tr) ∧
      simCnameRecordsAt t' "www.example.com" = [] ∧
      ∃ r ∈ t'.records, r.name = "www.example.com" ∧ r.type = RecordType.A ∧
        r.content = "93.184.216.34") ∧
    set_alias_record simProvider resolveEx cxAliasState "www.example.com"
        "unknown.example.org" 60 false =
      Except.error ("could not resolve host: " ++ "unknown.example.org") :=
  ⟨c6_linode_alias.2 resolveEx cxAliasState "www.example.com" "target.example.org"
      "93.184.216.34" 60 false (by decide) (by decide) (by decide) (by decide),
    c6_linode_alias.1 SimState simProvider resolveEx cxAliasState "www.example.com"
      "unknown.example.org" 60 false (by decide)⟩

end DstackIngress
